import Mathlib

/-!
Verification development for the `polybot` repository.

This file shallowly embeds the data-access / normalization layer of
`src/utils/sdk.py` (class `PolymarketSDK` and its helper functions) and the
pagination drivers of `src/scripts/pull_trades.py` and
`src/scripts/pull_events.py`, and proves properties about them.

Modelling conventions:
- Python strings are lists of Unicode code points (`Str := List ℕ`).
- Python numbers are embedded exactly: `int` as `ℤ`, `float` as `ℚ`
  (floats are modelled as exact rationals; none of the verified code paths
  perform rounding-sensitive float arithmetic).
- Python values (the shape of decoded JSON payloads and of arguments) are the
  inductive `PyVal`; `datetime.datetime` / `datetime.date` objects are the
  `PyVal.datetime` / `PyVal.date` constructors.
- UTC instants are rationals counting seconds since the Unix epoch.
- Rational arithmetic is routed through `Rat.divInt`-based helpers
  (`qAdd`, `qMul`, ...) because the core `Rat.add`/`Rat.mul` are irreducible
  and would block evaluation of concrete witnesses; the helpers are proved
  equal to the standard field operations below.
- HTTP is an explicit oracle: an environment mapping each request to a
  response.  Fallible code returns `Except`.
-/

namespace Polybot

/-- Python strings, as lists of Unicode code points. -/
abbrev Str := List ℕ

/-- Code points of a Lean string literal, used to write Python strings. -/
def strLit (s : String) : Str := s.data.map Char.toNat

/-! ### Kernel-reducible rational arithmetic -/

/-- Addition on `ℚ` via `Rat.divInt` (kernel-reducible). -/
def qAdd (a b : ℚ) : ℚ := Rat.divInt (a.num * (b.den : ℤ) + b.num * (a.den : ℤ)) ((a.den : ℤ) * (b.den : ℤ))

/-- Negation on `ℚ` via `Rat.divInt` (kernel-reducible). -/
def qNeg (a : ℚ) : ℚ := Rat.divInt (-a.num) (a.den : ℤ)

/-- Subtraction on `ℚ` via `Rat.divInt` (kernel-reducible). -/
def qSub (a b : ℚ) : ℚ := qAdd a (qNeg b)

/-- Multiplication on `ℚ` via `Rat.divInt` (kernel-reducible). -/
def qMul (a b : ℚ) : ℚ := Rat.divInt (a.num * b.num) ((a.den : ℤ) * (b.den : ℤ))

/-- Embedding of `ℤ` into `ℚ` via `Rat.divInt` (kernel-reducible). -/
def qOfInt (n : ℤ) : ℚ := Rat.divInt n 1

/-- Division of a rational by an integer, via `Rat.divInt` (kernel-reducible). -/
def qDivInt (a : ℚ) (n : ℤ) : ℚ := Rat.divInt a.num ((a.den : ℤ) * n)

theorem qAdd_eq (a b : ℚ) : qAdd a b = a + b := by
  have ha : ((a.den : ℚ)) ≠ 0 := by exact_mod_cast a.den_nz
  have hb : ((b.den : ℚ)) ≠ 0 := by exact_mod_cast b.den_nz
  rw [qAdd, Rat.divInt_eq_div]
  conv_rhs => rw [← Rat.num_div_den a, ← Rat.num_div_den b]
  rw [div_add_div _ _ ha hb]
  push_cast
  ring_nf

theorem qNeg_eq (a : ℚ) : qNeg a = -a := by
  have ha : ((a.den : ℚ)) ≠ 0 := by exact_mod_cast a.den_nz
  rw [qNeg, Rat.divInt_eq_div]
  conv_rhs => rw [← Rat.num_div_den a]
  push_cast
  rw [neg_div]

theorem qSub_eq (a b : ℚ) : qSub a b = a - b := by
  rw [qSub, qAdd_eq, qNeg_eq, sub_eq_add_neg]

theorem qMul_eq (a b : ℚ) : qMul a b = a * b := by
  rw [qMul, Rat.divInt_eq_div]
  conv_rhs => rw [← Rat.num_div_den a, ← Rat.num_div_den b]
  push_cast
  rw [div_mul_div_comm]

theorem qOfInt_eq (n : ℤ) : qOfInt n = (n : ℚ) := by
  rw [qOfInt, Rat.divInt_one]

theorem qDivInt_eq (a : ℚ) (n : ℤ) : qDivInt a n = a / (n : ℚ) := by
  rcases eq_or_ne n 0 with h | h
  · subst h
    simp [qDivInt]
  · have ha : ((a.den : ℚ)) ≠ 0 := by exact_mod_cast a.den_nz
    rw [qDivInt, Rat.divInt_eq_div]
    conv_rhs => rw [← Rat.num_div_den a]
    push_cast
    rw [div_div]

/-! ### Python string primitives -/

/-- ASCII whitespace recognised by Python `str.strip()` (the embedding models
the ASCII subset of Python's unicode whitespace). -/
def isSpace (c : ℕ) : Bool := c = 32 || c = 9 || c = 10 || c = 13 || c = 11 || c = 12

/-- Python `str.strip` family: drop characters satisfying `p` from both ends. -/
def stripBy (p : ℕ → Bool) (s : Str) : Str :=
  ((s.dropWhile p).reverse.dropWhile p).reverse

/-- Python `s.strip()` (whitespace). -/
def pyStripWs (s : Str) : Str := stripBy isSpace s

/-- Python `s.strip(chars)`: drop any of the given characters from both ends. -/
def pyStripChars (cs : List ℕ) (s : Str) : Str := stripBy (fun c => cs.contains c) s

/-- Python `s.split(sep)` for a one-character separator (keeps empty parts). -/
def pySplitOn (sep : ℕ) : Str → List Str
  | [] => [[]]
  | c :: rest =>
    match pySplitOn sep rest with
    | [] => if c = sep then [[], []] else [[c]]
    | h :: t => if c = sep then [] :: h :: t else (c :: h) :: t

/-- Python `sep.join(parts)`. -/
def joinSep (sep : Str) : List Str → Str
  | [] => []
  | [x] => x
  | x :: xs => x ++ sep ++ joinSep sep xs

/-- Decimal digits of a natural number, as code points (via `Nat.toDigits`). -/
def natRender (n : ℕ) : Str := (Nat.toDigits 10 n).map Char.toNat

/-- Python `str(n)` for an integer. -/
def intRender (n : ℤ) : Str :=
  if n < 0 then 45 :: natRender n.natAbs else natRender n.natAbs

/-! ### Python values -/

/-- Python values: the loosely-typed payloads the SDK consumes, plus the
`datetime.datetime` / `datetime.date` objects it accepts as arguments.
A `datetime` holds naive wall-clock components (the seconds field is rational
to carry microseconds) and an optional UTC offset in seconds (`tz`). -/
inductive PyVal where
  | none
  | bool (b : Bool)
  | int (n : ℤ)
  | float (q : ℚ)
  | str (s : Str)
  | list (xs : List PyVal)
  | dict (d : List (Str × PyVal))
  | datetime (y m d h mi : ℤ) (sec : ℚ) (tz : Option ℤ)
  | date (y m d : ℤ)

/-- Python `dict.get(key)`, defaulting to `None`.  The source would raise
`AttributeError` on non-dicts; every verified call site has already checked
`isinstance(item, dict)`, so the embedding totalizes the other cases to `None`. -/
def dictGet (v : PyVal) (k : Str) : PyVal :=
  match v with
  | .dict d =>
    match d.find? (fun kv => kv.1 = k) with
    | some kv => kv.2
    | Option.none => .none
  | _ => .none

/-- Python dict item assignment `d[k] = v` (update in place, else append),
totalized to the identity on non-dicts. -/
def dictSet (v : PyVal) (k : Str) (newVal : PyVal) : PyVal :=
  match v with
  | .dict d =>
    if d.any (fun kv => kv.1 = k) then
      .dict (d.map (fun kv => if kv.1 = k then (kv.1, newVal) else kv))
    else
      .dict (d ++ [(k, newVal)])
  | other => other

/-- Python truthiness. -/
def pyTruthy : PyVal → Bool
  | .none => false
  | .bool b => b
  | .int n => n ≠ 0
  | .float q => q ≠ 0
  | .str s => s ≠ []
  | .list xs => !xs.isEmpty
  | .dict d => !d.isEmpty
  | .datetime _ _ _ _ _ _ _ => true
  | .date _ _ _ => true

/-- Python `a or b` on values (first truthy operand, else the second). -/
def pyOr (a b : PyVal) : PyVal := if pyTruthy a then a else b

/-- Best-effort rendering of a float, `intpart.fracdigits`; matches Python's
shortest-roundtrip `repr` on the short decimal literals that occur in JSON
payloads (the verified properties never depend on this rendering). -/
def fracRender : ℕ → ℚ → Str
  | 0, _ => []
  | fuel + 1, q =>
    if q = 0 then []
    else
      let q10 := qMul q (qOfInt 10)
      let d := (q10.num.tdiv (q10.den : ℤ)).toNat
      (48 + d) :: fracRender fuel (qSub q10 (qOfInt (d : ℤ)))

/-- Python `repr` of a float value (best effort, see `fracRender`). -/
def floatRender (q : ℚ) : Str :=
  let sign : Str := if q < 0 then [45] else []
  let a := if q < 0 then qNeg q else q
  let ip := a.num.tdiv (a.den : ℤ)
  let frac := fracRender 17 (qSub a (qOfInt ip))
  sign ++ natRender ip.toNat ++ [46] ++ (if frac = [] then [48] else frac)

mutual

/-- Python `repr(value)` (string escapes inside `repr` of a string are
elided: the embedded string is emitted between single quotes verbatim). -/
def pyRepr : PyVal → Str
  | .none => strLit "None"
  | .bool b => if b then strLit "True" else strLit "False"
  | .int n => intRender n
  | .float q => floatRender q
  | .str s => 39 :: s ++ [39]
  | .list xs => 91 :: joinSep [44, 32] (pyReprList xs) ++ [93]
  | .dict d => 123 :: joinSep [44, 32] (pyReprDict d) ++ [125]
  | .datetime y m d h mi sec tz =>
      strLit "datetime.datetime(" ++ intRender y ++ [44] ++ intRender m ++ [44] ++ intRender d
        ++ [44] ++ intRender h ++ [44] ++ intRender mi ++ [44] ++ floatRender sec
        ++ (match tz with | some o => 44 :: intRender o | Option.none => []) ++ [41]
  | .date y m d =>
      strLit "datetime.date(" ++ intRender y ++ [44] ++ intRender m ++ [44] ++ intRender d ++ [41]

/-- `repr` of each element of a list value. -/
def pyReprList : List PyVal → List Str
  | [] => []
  | x :: xs => pyRepr x :: pyReprList xs

/-- `repr` of each `key: value` item of a dict value. -/
def pyReprDict : List (Str × PyVal) → List Str
  | [] => []
  | (k, v) :: kvs => (39 :: k ++ [39] ++ [58, 32] ++ pyRepr v) :: pyReprDict kvs

end

/-- Python `str(value)`: identity on strings, `repr` otherwise (the two only
differ on strings and datetimes among the embedded values; `str` of a
datetime is not needed by any verified call site and reuses `repr`). -/
def pyStr : PyVal → Str
  | .str s => s
  | v => pyRepr v

/-! ### Numeric literal parsing (Python `float(str)` / `int(str)`) -/

/-- ASCII digit test. -/
def isDigit (c : ℕ) : Bool := 48 ≤ c && c ≤ 57

/-- Value of a string of ASCII digits. -/
def digitsVal (ds : Str) : ℕ := ds.foldl (fun acc d => acc * 10 + (d - 48)) 0

/-- Consume an optional leading sign; returns (isNegative, rest). -/
def parseSign : Str → Bool × Str
  | 43 :: r => (false, r)
  | 45 :: r => (true, r)
  | s => (false, s)

/-- Apply a sign. -/
def qSigned (neg : Bool) (q : ℚ) : ℚ := if neg then qNeg q else q

/-- Exponent/mantissa assembly for `parseFloatLit`. -/
def parseFloatExp (neg : Bool) (ip fp : Str) (s : Str) : Option ℚ :=
  let mant : ℚ := qAdd (qOfInt (digitsVal ip : ℤ)) (Rat.divInt (digitsVal fp : ℤ) ((10 : ℤ) ^ fp.length))
  match s with
  | [] => some (qSigned neg mant)
  | e :: r =>
    if e = 101 || e = 69 then
      let (eneg, r2) := parseSign r
      let ds := r2.takeWhile isDigit
      if ds.isEmpty || !(r2.dropWhile isDigit).isEmpty then Option.none
      else
        let k := digitsVal ds
        some (qSigned neg (if eneg then qDivInt mant ((10 : ℤ) ^ k) else qMul mant (qOfInt ((10 : ℤ) ^ k))))
    else Option.none

/-- Python `float(s)` on a string: `[sign] (digits [. digits] | . digits) [(e|E) [sign] digits]`,
whitespace-stripped.  (`inf`/`nan` and digit-group underscores are not modelled;
no verified property depends on them.) -/
def parseFloatLit (s0 : Str) : Option ℚ :=
  let s1 := pyStripWs s0
  let (neg, s2) := parseSign s1
  let ip := s2.takeWhile isDigit
  let s3 := s2.dropWhile isDigit
  match s3 with
  | 46 :: r =>
    let fp := r.takeWhile isDigit
    let rest := r.dropWhile isDigit
    if ip.isEmpty && fp.isEmpty then Option.none else parseFloatExp neg ip fp rest
  | rest => if ip.isEmpty then Option.none else parseFloatExp neg ip [] rest

/-- Python `int(s)` on a string: `[sign] digits`, whitespace-stripped. -/
def parseIntLit (s0 : Str) : Option ℤ :=
  let s1 := pyStripWs s0
  let (neg, s2) := parseSign s1
  let ds := s2.takeWhile isDigit
  if ds.isEmpty || !(s2.dropWhile isDigit).isEmpty then Option.none
  else some (if neg then -(digitsVal ds : ℤ) else (digitsVal ds : ℤ))

/-- Truncation toward zero, Python `int(q)` on a float. -/
def pyTrunc (q : ℚ) : ℤ := q.num.tdiv (q.den : ℤ)

/-- Embeds `_parse_float` from src/utils/sdk.py: `float(value)` with
`TypeError`/`ValueError` recovered as `None` (Python `bool` is an `int`). -/
def parse_float : PyVal → Option ℚ
  | .bool b => some (qOfInt (if b then 1 else 0))
  | .int n => some (qOfInt n)
  | .float q => some q
  | .str s => parseFloatLit s
  | _ => Option.none

/-- Embeds `_parse_int` from src/utils/sdk.py: `int(value)` with
`TypeError`/`ValueError` recovered as `None`. -/
def parse_int : PyVal → Option ℤ
  | .bool b => some (if b then 1 else 0)
  | .int n => some n
  | .float q => some (pyTrunc q)
  | .str s => parseIntLit s
  | _ => Option.none

/-- Embeds `_coerce_str` from src/utils/sdk.py. -/
def coerce_str : PyVal → Option Str
  | .none => Option.none
  | v => some (pyStr v)

/-! ### Civil calendar and ISO-8601 parsing

`_parse_datetime` delegates string parsing to `datetime.fromisoformat` and
epoch parsing to `datetime.fromtimestamp(..., tz=utc)`.  The embedding maps
every representation to a rational count of seconds since the Unix epoch.
Python's `datetime` additionally restricts years to 1..9999 and raises on
epoch numbers outside that range; the embedding uses unbounded time, which is
faithful on the entire domain the SDK is specified over. -/

/-- Gregorian leap year. -/
def isLeap (y : ℤ) : Bool := (y % 4 = 0 && y % 100 ≠ 0) || y % 400 = 0

/-- Days in a month of the proleptic Gregorian calendar. -/
def daysInMonth (y : ℤ) (m : ℕ) : ℤ :=
  if m = 2 then (if isLeap y then 29 else 28)
  else if m = 4 ∨ m = 6 ∨ m = 9 ∨ m = 11 then 30 else 31

/-- Days since 1970-01-01 of a civil date (standard civil-from-days algorithm;
`/` on `ℤ` is floor division for the positive divisors used here). -/
def daysFromCivil (y m d : ℤ) : ℤ :=
  let y' := if m ≤ 2 then y - 1 else y
  let era := y' / 400
  let yoe := y' - era * 400
  let doy := (153 * (if m > 2 then m - 3 else m + 9) + 2) / 5 + d - 1
  let doe := yoe * 365 + yoe / 4 - yoe / 100 + doy
  era * 146097 + doe - 719468

/-- Parse exactly two ASCII digits. -/
def parse2 : Str → Option (ℕ × Str)
  | a :: b :: rest =>
    if isDigit a && isDigit b then some ((a - 48) * 10 + (b - 48), rest) else Option.none
  | _ => Option.none

/-- Parse exactly four ASCII digits. -/
def parse4 : Str → Option (ℕ × Str)
  | a :: b :: c :: d :: rest =>
    if isDigit a && isDigit b && isDigit c && isDigit d then
      some (((a - 48) * 10 + (b - 48)) * 100 + ((c - 48) * 10 + (d - 48)), rest)
    else Option.none
  | _ => Option.none

/-- Parse the fractional-seconds digits after the decimal point (at least one
digit; only the first six are significant, as in `fromisoformat`). -/
def parseFracPart (s : Str) : Option (ℚ × Str) :=
  let ds := s.takeWhile isDigit
  if ds.isEmpty then Option.none
  else
    let micros := digitsVal (ds.take 6) * 10 ^ (6 - min ds.length 6)
    some (Rat.divInt (micros : ℤ) 1000000, s.dropWhile isDigit)

/-- Parse `HH[:MM[:SS]]` or `HHMM` after an offset sign; seconds, nonnegative. -/
def parseOffsetBody (s : Str) : Option ℤ :=
  (parse2 s).bind fun p =>
    let hh := p.1
    if hh > 23 then Option.none else
    match p.2 with
    | [] => some (3600 * hh)
    | 58 :: r2 =>
      (parse2 r2).bind fun q =>
        let mm := q.1
        if mm > 59 then Option.none else
        match q.2 with
        | [] => some (3600 * hh + 60 * mm)
        | 58 :: r4 =>
          (parse2 r4).bind fun w =>
            if w.1 > 59 || !w.2.isEmpty then Option.none
            else some (3600 * hh + 60 * mm + w.1)
        | _ => Option.none
    | r2 =>
      (parse2 r2).bind fun q =>
        if q.1 > 59 || !q.2.isEmpty then Option.none
        else some (3600 * hh + 60 * q.1)

/-- Parse `HH[:MM[:SS[.frac]]]`; seconds within the day and the rest. -/
def parseTimeBody (s : Str) : Option (ℚ × Str) :=
  (parse2 s).bind fun p =>
    let hh := p.1
    if hh > 23 then Option.none else
    match p.2 with
    | 58 :: r2 =>
      (parse2 r2).bind fun q =>
        let mm := q.1
        if mm > 59 then Option.none else
        match q.2 with
        | 58 :: r4 =>
          (parse2 r4).bind fun w =>
            let ss := w.1
            if ss > 59 then Option.none else
            match w.2 with
            | 46 :: r6 =>
              (parseFracPart r6).map fun fr =>
                (qAdd (qOfInt (3600 * hh + 60 * mm + ss : ℤ)) fr.1, fr.2)
            | rest => some (qOfInt (3600 * hh + 60 * mm + ss : ℤ), rest)
        | rest => some (qOfInt (3600 * hh + 60 * mm : ℤ), rest)
    | rest => some (qOfInt (3600 * hh : ℤ), rest)

/-- Parse the optional UTC-offset suffix.  `some Option.none` means "naive",
`some (some o)` an offset of `o` seconds, `Option.none` a parse error. -/
def parseOffsetPart : Str → Option (Option ℤ)
  | [] => some Option.none
  | 43 :: r => (parseOffsetBody r).map fun o => some o
  | 45 :: r => (parseOffsetBody r).map fun o => some (-o)
  | [90] => some (some 0)
  | [122] => some (some 0)
  | _ => Option.none

/-- Embeds the subset of `datetime.fromisoformat` exercised by the SDK:
`YYYY-MM-DD[{sep}HH:MM[:SS[.frac]]][offset]` with an arbitrary one-character
date/time separator (the compact digits-only forms are outside the model).
Returns naive seconds since the epoch plus the optional offset in seconds. -/
def parseISO (s : Str) : Option (ℚ × Option ℤ) :=
  (parse4 s).bind fun p =>
    let y := p.1
    if y = 0 then Option.none else
    match p.2 with
    | 45 :: r1 =>
      (parse2 r1).bind fun q =>
        let mo := q.1
        if mo < 1 ∨ 12 < mo then Option.none else
        match q.2 with
        | 45 :: r2 =>
          (parse2 r2).bind fun w =>
            let dy := w.1
            if dy < 1 ∨ daysInMonth (y : ℤ) mo < (dy : ℤ) then Option.none else
            let base : ℤ := 86400 * daysFromCivil (y : ℤ) (mo : ℤ) (dy : ℤ)
            match w.2 with
            | [] => some (qOfInt base, Option.none)
            | _ :: t =>
              (parseTimeBody t).bind fun tb =>
                (parseOffsetPart tb.2).map fun off => (qAdd (qOfInt base) tb.1, off)
        | _ => Option.none
    | _ => Option.none

/-- Python `s.replace("Z", "+00:00")`: rewrite every occurrence. -/
def replaceZ : Str → Str
  | [] => []
  | c :: r => if c = 90 then 43 :: 48 :: 48 :: 58 :: 48 :: 48 :: replaceZ r else c :: replaceZ r

/-- Embeds `_parse_datetime` from src/utils/sdk.py.  All representations are
normalized to a UTC instant (rational seconds since the epoch): datetime
objects keep their wall time (naive ones are assumed UTC), date objects get
midnight, epoch numbers are seconds, and strings go through
`replace("Z", "+00:00")` followed by `fromisoformat` (naive results assumed
UTC, aware ones shifted by their offset).  Unparsable values yield `none`. -/
def parse_datetime : PyVal → Option ℚ
  | .none => Option.none
  | .datetime y m d h mi sec tz =>
    let naive := qAdd (qOfInt (86400 * daysFromCivil y m d + 3600 * h + 60 * mi)) sec
    some (match tz with
      | some off => qSub naive (qOfInt off)
      | Option.none => naive)
  | .date y m d => some (qOfInt (86400 * daysFromCivil y m d))
  | .bool b => some (qOfInt (if b then 1 else 0))
  | .int n => some (qOfInt n)
  | .float q => some q
  | v => (parseISO (replaceZ (pyStr v))).map fun p => qSub p.1 (qOfInt (p.2.getD 0))

/-- Embeds `_parse_unix_timestamp` from src/utils/sdk.py: coerce to float,
divide by 1000 when above 10^12 (milliseconds), interpret as epoch seconds. -/
def parse_unix_timestamp (v : PyVal) : Option ℚ :=
  match v with
  | .none => Option.none
  | _ =>
    (parse_float v).bind fun ts =>
      some (if ts > 1000000000000 then qDivInt ts 1000 else ts)

/-- Embeds `_interval_to_seconds` from src/utils/sdk.py. -/
def interval_to_seconds (interval : Str) : Option ℤ :=
  if interval = strLit "1h" then some 3600
  else if interval = strLit "6h" then some 21600
  else if interval = strLit "1d" then some 86400
  else if interval = strLit "1w" then some 604800
  else if interval = strLit "1m" then some 2592000
  else Option.none

/-! ### JSON decoding (`json.loads`)

A recursive-descent JSON parser over code-point strings, used by
`_parse_json_list`.  Fuel-indexed; the callers pass `length + 1` fuel, which
is always sufficient since every recursive step consumes input.  The
non-standard `NaN`/`Infinity` literals Python accepts are not modelled (a
top-level non-list result is treated identically to a parse failure by the
only consumer, `_parse_json_list`). -/

/-- JSON insignificant whitespace. -/
def jsonWs (s : Str) : Str := s.dropWhile (fun c => c = 32 || c = 9 || c = 10 || c = 13)

/-- Hex digit value. -/
def hexVal (c : ℕ) : Option ℕ :=
  if 48 ≤ c && c ≤ 57 then some (c - 48)
  else if 97 ≤ c && c ≤ 102 then some (c - 87)
  else if 65 ≤ c && c ≤ 70 then some (c - 55)
  else Option.none

/-- Parse a JSON string body (after the opening quote); returns content and rest.
Handles escapes including `\uXXXX` with surrogate-pair combination. -/
def jsonString : ℕ → Str → Option (Str × Str)
  | 0, _ => Option.none
  | _ + 1, [] => Option.none
  | fuel + 1, c :: r =>
    if c = 34 then some ([], r)
    else if c = 92 then
      match r with
      | [] => Option.none
      | e :: r2 =>
        let simpleEsc : Option ℕ :=
          if e = 34 then some 34 else if e = 92 then some 92 else if e = 47 then some 47
          else if e = 98 then some 8 else if e = 102 then some 12 else if e = 110 then some 10
          else if e = 114 then some 13 else if e = 116 then some 9 else Option.none
        match simpleEsc with
        | some ch => (jsonString fuel r2).map fun p => (ch :: p.1, p.2)
        | Option.none =>
          if e = 117 then
            match r2 with
            | h1 :: h2 :: h3 :: h4 :: r3 =>
              match hexVal h1, hexVal h2, hexVal h3, hexVal h4 with
              | some v1, some v2, some v3, some v4 =>
                let cp := ((v1 * 16 + v2) * 16 + v3) * 16 + v4
                match r3 with
                | 92 :: 117 :: g1 :: g2 :: g3 :: g4 :: r4 =>
                  match hexVal g1, hexVal g2, hexVal g3, hexVal g4 with
                  | some u1, some u2, some u3, some u4 =>
                    let cp2 := ((u1 * 16 + u2) * 16 + u3) * 16 + u4
                    if 55296 ≤ cp && cp ≤ 56319 && 56320 ≤ cp2 && cp2 ≤ 57343 then
                      (jsonString fuel r4).map fun p =>
                        ((65536 + (cp - 55296) * 1024 + (cp2 - 56320)) :: p.1, p.2)
                    else
                      (jsonString fuel r3).map fun p => (cp :: p.1, p.2)
                  | _, _, _, _ => (jsonString fuel r3).map fun p => (cp :: p.1, p.2)
                | _ => (jsonString fuel r3).map fun p => (cp :: p.1, p.2)
              | _, _, _, _ => Option.none
            | _ => Option.none
          else Option.none
    else if c < 32 then Option.none
    else (jsonString fuel r).map fun p => (c :: p.1, p.2)

/-- Assemble a JSON number from its parts: `int` when it has no fractional or
exponent part, `float` otherwise. -/
def jsonNumAssemble (neg : Bool) (ip fp : Str) (exp : Option (Bool × Str)) : PyVal :=
  match fp, exp with
  | [], Option.none =>
    .int (if neg then -(digitsVal ip : ℤ) else (digitsVal ip : ℤ))
  | _, _ =>
    let mant : ℚ := qAdd (qOfInt (digitsVal ip : ℤ)) (Rat.divInt (digitsVal fp : ℤ) ((10 : ℤ) ^ fp.length))
    let scaled :=
      match exp with
      | Option.none => mant
      | some (eneg, ds) =>
        if eneg then qDivInt mant ((10 : ℤ) ^ digitsVal ds)
        else qMul mant (qOfInt ((10 : ℤ) ^ digitsVal ds))
    .float (qSigned neg scaled)

/-- Parse a JSON number: `-? (0 | [1-9][0-9]*) frac? exp?`. -/
def jsonNumber (s : Str) : Option (PyVal × Str) :=
  let (neg, s1) := match s with | 45 :: r => (true, r) | _ => (false, s)
  let ip := s1.takeWhile isDigit
  if ip.isEmpty then Option.none
  else if 1 < ip.length && ip.head? = some 48 then Option.none
  else
    let s2 := s1.dropWhile isDigit
    let fracStep : Option (Str × Str) :=
      match s2 with
      | 46 :: r =>
        let fp := r.takeWhile isDigit
        if fp.isEmpty then Option.none else some (fp, r.dropWhile isDigit)
      | _ => some ([], s2)
    fracStep.bind fun fs =>
      match fs.2 with
      | e :: r =>
        if e = 101 || e = 69 then
          let (eneg, r2) := parseSign r
          let ds := r2.takeWhile isDigit
          if ds.isEmpty then Option.none
          else some (jsonNumAssemble neg ip fs.1 (some (eneg, ds)), r2.dropWhile isDigit)
        else some (jsonNumAssemble neg ip fs.1 Option.none, fs.2)
      | [] => some (jsonNumAssemble neg ip fs.1 Option.none, [])

/-- Add a member to an object under construction, replacing the value of an
existing key in place (Python dict semantics for duplicate keys). -/
def jsonAddMember (d : List (Str × PyVal)) (k : Str) (v : PyVal) : List (Str × PyVal) :=
  if d.any (fun kv => kv.1 = k) then d.map (fun kv => if kv.1 = k then (kv.1, v) else kv)
  else d ++ [(k, v)]

/-- Parsing mode for `jsonCore`: a single value, the elements of a non-empty
array, or the members of a non-empty object (with the accumulated members). -/
inductive JMode where
  | value
  | elems
  | members (acc : List (Str × PyVal))

/-- Recursive-descent core of `json.loads`, structurally recursive on fuel so
that it stays kernel-reducible.  In `elems`/`members` mode the result is
wrapped as `.list`/`.dict`. -/
def jsonCore : ℕ → JMode → Str → Option (PyVal × Str)
  | 0, _, _ => Option.none
  | fuel + 1, .value, s =>
    match s with
    | 34 :: r => (jsonString (fuel + 1) r).map fun p => (.str p.1, p.2)
    | 123 :: r =>
      (match jsonWs r with
       | 125 :: r2 => some (.dict [], r2)
       | r2 => jsonCore fuel (.members []) r2)
    | 91 :: r =>
      (match jsonWs r with
       | 93 :: r2 => some (.list [], r2)
       | r2 => jsonCore fuel .elems r2)
    | 116 :: 114 :: 117 :: 101 :: r => some (.bool true, r)
    | 102 :: 97 :: 108 :: 115 :: 101 :: r => some (.bool false, r)
    | 110 :: 117 :: 108 :: 108 :: r => some (.none, r)
    | _ => jsonNumber s
  | fuel + 1, .elems, s =>
    (jsonCore fuel .value s).bind fun p =>
      match jsonWs p.2 with
      | 44 :: r =>
        (jsonCore fuel .elems (jsonWs r)).bind fun q =>
          match q.1 with
          | .list xs => some (.list (p.1 :: xs), q.2)
          | _ => Option.none
      | 93 :: r => some (.list [p.1], r)
      | _ => Option.none
  | fuel + 1, .members acc, s =>
    match s with
    | 34 :: r =>
      (jsonString (fuel + 1) r).bind fun kp =>
        match jsonWs kp.2 with
        | 58 :: r2 =>
          (jsonCore fuel .value (jsonWs r2)).bind fun vp =>
            let acc2 := jsonAddMember acc kp.1 vp.1
            match jsonWs vp.2 with
            | 44 :: r3 => jsonCore fuel (.members acc2) (jsonWs r3)
            | 125 :: r3 => some (.dict acc2, r3)
            | _ => Option.none
        | _ => Option.none
    | _ => Option.none

/-- Embeds `json.loads`: parse one value, then require only whitespace to follow. -/
def jsonLoads (s : Str) : Option PyVal :=
  let t := jsonWs s
  (jsonCore (2 * t.length + 2) .value t).bind fun p =>
    if (jsonWs p.2).isEmpty then some p.1 else Option.none

/-- Embeds `_parse_json_list` from src/utils/sdk.py: `None` gives `[]`, lists
are stringified elementwise, strings are stripped then JSON-decoded (a decoded
list is stringified elementwise; any other outcome falls back to stripping
brackets and quotes and splitting on commas), anything else is one string. -/
def parse_json_list (value : PyVal) : List Str :=
  match value with
  | .none => []
  | .list xs => xs.map pyStr
  | .str s0 =>
    let text := pyStripWs s0
    if text.isEmpty then []
    else
      match jsonLoads text with
      | some (.list xs) => xs.map pyStr
      | _ =>
        let cleaned := pyStripChars [91, 93] text
        ((pySplitOn 44 cleaned).filter fun part => !(pyStripWs part).isEmpty).map
          fun part => pyStripChars [39, 34] (pyStripWs part)
  | v => [pyStr v]

/-! ### UTF-8, base64url, SHA-256, HMAC

Embeds the primitives used by `_build_hmac_signature`:
`message.encode("utf-8")`, `base64.urlsafe_b64decode` / `urlsafe_b64encode`,
and `hmac.new(..., hashlib.sha256)`. -/

/-- UTF-8 encoding of one code point. -/
def utf8Char (c : ℕ) : List ℕ :=
  if c < 128 then [c]
  else if c < 2048 then [192 + c / 64, 128 + c % 64]
  else if c < 65536 then [224 + c / 4096, 128 + c / 64 % 64, 128 + c % 64]
  else [240 + c / 262144, 128 + c / 4096 % 64, 128 + c / 64 % 64, 128 + c % 64]

/-- UTF-8 encoding of a string, as bytes. -/
def utf8Encode (s : Str) : List ℕ := (s.map utf8Char).flatten

/-- The base64url alphabet: value (0..63) to code point. -/
def b64Char (n : ℕ) : ℕ :=
  if n < 26 then 65 + n
  else if n < 52 then 97 + (n - 26)
  else if n < 62 then 48 + (n - 52)
  else if n = 62 then 45 else 95

/-- The base64url alphabet: code point to value. -/
def b64CharVal (c : ℕ) : Option ℕ :=
  if 65 ≤ c && c ≤ 90 then some (c - 65)
  else if 97 ≤ c && c ≤ 122 then some (26 + c - 97)
  else if 48 ≤ c && c ≤ 57 then some (52 + c - 48)
  else if c = 45 then some 62
  else if c = 95 then some 63
  else Option.none

/-- `base64.urlsafe_b64encode` on bytes, producing a code-point string. -/
def b64Encode : List ℕ → Str
  | a :: b :: c :: rest =>
    let n := a * 65536 + b * 256 + c
    b64Char (n / 262144) :: b64Char (n / 4096 % 64) :: b64Char (n / 64 % 64) :: b64Char (n % 64)
      :: b64Encode rest
  | [a, b] =>
    [b64Char (a / 4), b64Char (a % 4 * 16 + b / 16), b64Char (b % 16 * 4), 61]
  | [a] => [b64Char (a / 4), b64Char (a % 4 * 16), 61, 61]
  | [] => []

/-- `base64.urlsafe_b64decode` on a properly padded base64url string.  (The
Python decoder additionally discards characters outside the alphabet before
decoding; unpadded or noisy inputs are outside the model and yield `none`.) -/
def b64Decode : Str → Option (List ℕ)
  | [] => some []
  | [c1, c2, 61, 61] =>
    (b64CharVal c1).bind fun v1 => (b64CharVal c2).map fun v2 => [v1 * 4 + v2 / 16]
  | [c1, c2, c3, 61] =>
    (b64CharVal c1).bind fun v1 =>
      (b64CharVal c2).bind fun v2 =>
        (b64CharVal c3).map fun v3 => [v1 * 4 + v2 / 16, v2 % 16 * 16 + v3 / 4]
  | c1 :: c2 :: c3 :: c4 :: rest =>
    (b64CharVal c1).bind fun v1 =>
      (b64CharVal c2).bind fun v2 =>
        (b64CharVal c3).bind fun v3 =>
          (b64CharVal c4).bind fun v4 =>
            (b64Decode rest).map fun bs =>
              let n := ((v1 * 64 + v2) * 64 + v3) * 64 + v4
              n / 65536 :: n / 256 % 256 :: n % 256 :: bs
  | _ => Option.none

/-- Reduction modulo 2^32. -/
def w32 (n : ℕ) : ℕ := n % 4294967296

/-- 32-bit rotate right. -/
def rotr (n x : ℕ) : ℕ := w32 (x / 2 ^ n + x % 2 ^ n * 2 ^ (32 - n))

/-- SHA-256 round constants. -/
def sha256K : List ℕ :=
  [1116352408, 1899447441, 3049323471, 3921009573, 961987163, 1508970993, 2453635748, 2870763221,
   3624381080, 310598401, 607225278, 1426881987, 1925078388, 2162078206, 2614888103, 3248222580,
   3835390401, 4022224774, 264347078, 604807628, 770255983, 1249150122, 1555081692, 1996064986,
   2554220882, 2821834349, 2952996808, 3210313671, 3336571891, 3584528711, 113926993, 338241895,
   666307205, 773529912, 1294757372, 1396182291, 1695183700, 1986661051, 2177026350, 2456956037,
   2730485921, 2820302411, 3259730800, 3345764771, 3516065817, 3600352804, 4094571909, 275423344,
   430227734, 506948616, 659060556, 883997877, 958139571, 1322822218, 1537002063, 1747873779,
   1955562222, 2024104815, 2227730452, 2361852424, 2428436474, 2756734187, 3204031479, 3329325298]

/-- SHA-256 working state. -/
structure Sha8 where
  a : ℕ
  b : ℕ
  c : ℕ
  d : ℕ
  e : ℕ
  f : ℕ
  g : ℕ
  h : ℕ

/-- SHA-256 initial hash value. -/
def sha256H0 : Sha8 :=
  ⟨1779033703, 3144134277, 1013904242, 2773480762, 1359893119, 2600822924, 528734635, 1541459225⟩

/-- Big-endian bytes of a 32-bit word. -/
def be32 (n : ℕ) : List ℕ := [n / 16777216 % 256, n / 65536 % 256, n / 256 % 256, n % 256]

/-- Big-endian bytes of a 64-bit length field. -/
def be64 (n : ℕ) : List ℕ :=
  [n / 2 ^ 56 % 256, n / 2 ^ 48 % 256, n / 2 ^ 40 % 256, n / 2 ^ 32 % 256,
   n / 2 ^ 24 % 256, n / 2 ^ 16 % 256, n / 2 ^ 8 % 256, n % 256]

/-- SHA-256 message padding. -/
def sha256Pad (msg : List ℕ) : List ℕ :=
  let L := msg.length
  let k := (120 - (L + 1) % 64) % 64
  msg ++ 128 :: List.replicate k 0 ++ be64 (8 * L)

/-- Split a byte string into 64-byte blocks (fuel-driven, callers pass length). -/
def chunks64 : ℕ → List ℕ → List (List ℕ)
  | 0, _ => []
  | _ + 1, [] => []
  | fuel + 1, l => l.take 64 :: chunks64 fuel (l.drop 64)

/-- Big-endian 32-bit words of a block. -/
def toWords : List ℕ → List ℕ
  | a :: b :: c :: d :: rest => (a * 16777216 + b * 65536 + c * 256 + d) :: toWords rest
  | _ => []

/-- SHA-256 message-schedule extension step (σ functions). -/
def sha256Extend : ℕ → List ℕ → List ℕ
  | 0, w => w
  | fuel + 1, w =>
    let i := w.length
    let x15 := w.getD (i - 15) 0
    let x2 := w.getD (i - 2) 0
    let s0 := rotr 7 x15 ^^^ rotr 18 x15 ^^^ x15 / 2 ^ 3
    let s1 := rotr 17 x2 ^^^ rotr 19 x2 ^^^ x2 / 2 ^ 10
    sha256Extend fuel (w ++ [w32 (w.getD (i - 16) 0 + s0 + w.getD (i - 7) 0 + s1)])

/-- One SHA-256 compression round. -/
def sha256Round (st : Sha8) (kw : ℕ × ℕ) : Sha8 :=
  let s1 := rotr 6 st.e ^^^ rotr 11 st.e ^^^ rotr 25 st.e
  let ch := st.e &&& st.f ^^^ (4294967295 - st.e) &&& st.g
  let t1 := w32 (st.h + s1 + ch + kw.1 + kw.2)
  let s0 := rotr 2 st.a ^^^ rotr 13 st.a ^^^ rotr 22 st.a
  let maj := st.a &&& st.b ^^^ st.a &&& st.c ^^^ st.b &&& st.c
  let t2 := w32 (s0 + maj)
  ⟨w32 (t1 + t2), st.a, st.b, st.c, w32 (st.d + t1), st.e, st.f, st.g⟩

/-- SHA-256 compression of one 64-byte block. -/
def sha256Block (st : Sha8) (block : List ℕ) : Sha8 :=
  let w := sha256Extend 48 (toWords block)
  let r := (sha256K.zip w).foldl sha256Round st
  ⟨w32 (st.a + r.a), w32 (st.b + r.b), w32 (st.c + r.c), w32 (st.d + r.d),
   w32 (st.e + r.e), w32 (st.f + r.f), w32 (st.g + r.g), w32 (st.h + r.h)⟩

/-- SHA-256 digest of a byte string. -/
def sha256 (msg : List ℕ) : List ℕ :=
  let padded := sha256Pad msg
  let st := (chunks64 padded.length padded).foldl sha256Block sha256H0
  be32 st.a ++ be32 st.b ++ be32 st.c ++ be32 st.d ++ be32 st.e ++ be32 st.f ++ be32 st.g ++ be32 st.h

/-- HMAC-SHA256 (block size 64). -/
def hmacSha256 (key msg : List ℕ) : List ℕ :=
  let k0 := if 64 < key.length then sha256 key else key
  let k1 := k0 ++ List.replicate (64 - k0.length) 0
  sha256 ((k1.map fun b => b ^^^ 92) ++ sha256 ((k1.map fun b => b ^^^ 54) ++ msg))

/-- Quote normalization applied to a serialized body:
`str(body).replace("'", '"')`. -/
def replaceQuotes (s : Str) : Str := s.map fun c => if c = 39 then 34 else c

/-- Embeds `_build_hmac_signature` from src/utils/sdk.py: decode the shared
secret with `urlsafe_b64decode`, build the message
`f"{timestamp}{method}{request_path}"` plus the quote-normalized `str(body)`
when a body is present, take HMAC-SHA256, and re-encode with
`urlsafe_b64encode`.  `none` models the `binascii.Error` raised on an
undecodable secret. -/
def build_hmac_signature (secret : Str) (timestamp : ℤ) (method requestPath : Str)
    (body : Option PyVal) : Option Str :=
  (b64Decode secret).map fun base64Secret =>
    let message := intRender timestamp ++ method ++ requestPath ++
      (match body with
       | some b => replaceQuotes (pyStr b)
       | Option.none => [])
    b64Encode (hmacSha256 base64Secret (utf8Encode message))

/-- Modelled from the spec (§4.4 L2 Auth Signer), for comparison with the
source-derived `build_hmac_signature`: the canonical message is timestamp,
then HTTP method, then request path, then — when present — the request body
serialized with double-quote normalization. -/
def specCanonicalMessage (timestamp : ℤ) (method requestPath : Str) (body : Option PyVal) : Str :=
  intRender timestamp ++ method ++ requestPath ++
    (match body with
     | some b => replaceQuotes (pyStr b)
     | Option.none => [])

/-- Modelled from the spec (§4.4 L2 Auth Signer): HMAC-SHA256 of the canonical
message keyed by the base64url-decoded shared secret, encoded back to
base64url. -/
def specL2Signature (secret : Str) (timestamp : ℤ) (method requestPath : Str)
    (body : Option PyVal) : Option Str :=
  (b64Decode secret).map fun key =>
    b64Encode (hmacSha256 key (utf8Encode (specCanonicalMessage timestamp method requestPath body)))

/-! ### Instant rendering (civil-from-days), used by the scripts layer -/

/-- Floor of a rational. -/
def qFloor (q : ℚ) : ℤ := q.num.fdiv (q.den : ℤ)

/-- Civil date of a day count since 1970-01-01 (standard algorithm; `/` on `ℤ`
is floor division, so the truncation-compensating shift of the C version of
the algorithm is unnecessary). -/
def civilFromDays (z0 : ℤ) : ℤ × ℤ × ℤ :=
  let z := z0 + 719468
  let era := z / 146097
  let doe := z - era * 146097
  let yoe := (doe - doe / 1460 + doe / 36524 - doe / 146096) / 365
  let y := yoe + era * 400
  let doy := doe - (365 * yoe + yoe / 4 - yoe / 100)
  let mp := (5 * doy + 2) / 153
  let d := doy - (153 * mp + 2) / 5 + 1
  let m := mp + (if mp < 10 then 3 else -9)
  (y + (if m ≤ 2 then 1 else 0), m, d)

/-- Two-digit zero-padded decimal. -/
def pad2n (n : ℕ) : Str := [48 + n / 10 % 10, 48 + n % 10]

/-- Four-digit zero-padded decimal. -/
def pad4n (n : ℕ) : Str :=
  [48 + n / 1000 % 10, 48 + n / 100 % 10, 48 + n / 10 % 10, 48 + n % 10]

/-- Six-digit zero-padded decimal. -/
def pad6n (n : ℕ) : Str :=
  [48 + n / 100000 % 10, 48 + n / 10000 % 10, 48 + n / 1000 % 10,
   48 + n / 100 % 10, 48 + n / 10 % 10, 48 + n % 10]

/-- Rendering of a UTC instant as Python renders an aware datetime:
`YYYY-MM-DD{sep}HH:MM:SS[.ffffff]+00:00` (`sep` is a space for `str`, `T` for
`isoformat`; microseconds appear only when nonzero). -/
def instantRender (sep : ℕ) (q : ℚ) : Str :=
  let days : ℤ := q.num.fdiv (86400 * (q.den : ℤ))
  let remq : ℚ := qSub q (qOfInt (86400 * days))
  let tm := (qFloor (qMul remq (qOfInt 1000000))).toNat
  let secs := tm / 1000000
  let micros := tm % 1000000
  let c := civilFromDays days
  pad4n c.1.toNat ++ [45] ++ pad2n c.2.1.toNat ++ [45] ++ pad2n c.2.2.toNat ++ [sep]
    ++ pad2n (secs / 3600) ++ [58] ++ pad2n (secs / 60 % 60) ++ [58] ++ pad2n (secs % 60)
    ++ (if micros = 0 then [] else 46 :: pad6n micros) ++ strLit "+00:00"

/-- `datetime.strftime("%Y-%m-%d")` of a UTC instant. -/
def strfDate (q : ℚ) : Str :=
  let days : ℤ := q.num.fdiv (86400 * (q.den : ℤ))
  let c := civilFromDays days
  pad4n c.1.toNat ++ [45] ++ pad2n c.2.1.toNat ++ [45] ++ pad2n c.2.2.toNat

/-! ### HTTP model

The network is an explicit oracle (`Env`): a function from requests to
responses.  `_get_json` is split into a pure response-handling core
(`getJsonCore`) and the oracle call (`getJson`); `getJsonQueued` runs the same
core against a queue of responses consumed one per issued request, which makes
"the client performs no automatic retry" a provable statement. -/

/-- Errors surfaced by the embedded client: `transport` is any
`requests.RequestException` (connection error, timeout, `raise_for_status`,
or a JSON decode error of the body, which subclasses it); `valueError` is the
configuration error raised for missing credentials. -/
inductive PyErr where
  | transport
  | valueError
  deriving DecidableEq

/-- The three REST bases of the SDK. -/
inductive ApiBase where
  | gamma
  | clob
  | data
  deriving DecidableEq

/-- An HTTP GET request as issued by `_get_json`: base, path, the query
parameters after `None`-filtering, and whether L2 auth headers were attached. -/
structure Request where
  base : ApiBase
  path : Str
  params : List (Str × PyVal)
  authed : Bool

/-- An HTTP response: a status code with a body (`Option.none` body models a
payload `resp.json()` cannot decode), or a connection/timeout failure. -/
inductive HttpResp where
  | ok (status : ℕ) (body : Option PyVal)
  | exn

/-- The network oracle. -/
def Env := Request → HttpResp

/-- Embeds the response handling of `PolymarketSDK._get_json` from
src/utils/sdk.py: statuses 400 and 404 yield the empty dict; any status in
the 4xx/5xx ranges raises via `resp.raise_for_status()`; otherwise the JSON
body is returned (an undecodable body raises `requests.JSONDecodeError`,
which the `except requests.RequestException: raise` clause re-raises). -/
def getJsonCore : HttpResp → Except PyErr PyVal
  | .exn => .error .transport
  | .ok status body =>
    if status = 400 ∨ status = 404 then .ok (.dict [])
    else if 400 ≤ status ∧ status ≤ 599 then .error .transport
    else
      match body with
      | some v => .ok v
      | Option.none => .error .transport

/-- The `None`-filtering `_get_json` applies to query parameters. -/
def filterParams (ps : List (Str × PyVal)) : List (Str × PyVal) :=
  ps.filter fun kv =>
    match kv.2 with
    | .none => false
    | _ => true

/-- `_get_json` against the oracle: build the request and handle the response. -/
def getJson (env : Env) (base : ApiBase) (path : Str) (ps : List (Str × PyVal))
    (authed : Bool) : Except PyErr PyVal :=
  getJsonCore (env ⟨base, path, filterParams ps, authed⟩)

/-- `_get_json` against a queue of responses: exactly one response is consumed
per call (the second component is the remaining queue).  An exhausted queue
behaves as a connection failure. -/
def getJsonQueued : List HttpResp → Except PyErr PyVal × List HttpResp
  | [] => (.error .transport, [])
  | r :: rest => (getJsonCore r, rest)

/-! ### Record types (the frozen dataclasses of src/utils/sdk.py)

Fields that the source merely passes through from the raw payload
(`raw.get(...)` with no coercion) are embedded as `PyVal`; fields the source
coerces (`_parse_float`, `_parse_int`, `_parse_datetime`, `_coerce_str`,
`_parse_json_list`, `str(...)`) get the coerced type. -/

/-- Embeds dataclass `Token`. -/
structure Token where
  token_id : Str
  outcome : Option Str
  price : Option ℚ

/-- Embeds dataclass `PricePoint`. -/
structure PricePoint where
  timestamp : ℚ
  price : ℚ

/-- Embeds dataclass `MakerOrder`. -/
structure MakerOrder where
  order_id : Option Str
  maker_address : PyVal
  owner : PyVal
  matched_amount : Option ℚ
  fee_rate_bps : Option ℚ
  price : Option ℚ
  asset_id : PyVal
  outcome : PyVal
  side : PyVal
  raw : PyVal

/-- Embeds dataclass `Trade` (CLOB trade). -/
structure Trade where
  id : Option Str
  taker_order_id : PyVal
  market : PyVal
  asset_id : PyVal
  side : PyVal
  size : Option ℚ
  fee_rate_bps : Option ℚ
  price : Option ℚ
  status : PyVal
  match_time : Option ℚ
  last_update : Option ℚ
  outcome : PyVal
  bucket_index : Option ℤ
  owner : PyVal
  maker_address : PyVal
  maker_orders : List MakerOrder
  transaction_hash : PyVal
  trader_side : PyVal
  raw : PyVal

/-- Embeds dataclass `PublicTrade` (public Data API trade). -/
structure PublicTrade where
  proxy_wallet : PyVal
  side : PyVal
  asset : PyVal
  condition_id : PyVal
  size : Option ℚ
  price : Option ℚ
  timestamp : Option ℚ
  title : PyVal
  slug : PyVal
  icon : PyVal
  event_slug : PyVal
  outcome : PyVal
  outcome_index : Option ℤ
  name : PyVal
  pseudonym : PyVal
  bio : PyVal
  profile_image : PyVal
  profile_image_optimized : PyVal
  transaction_hash : PyVal
  raw : PyVal

/-- Embeds dataclass `Market`. -/
structure Market where
  id : Str
  question : PyVal
  slug : PyVal
  description : PyVal
  outcomes : List Str
  outcome_prices : List (Option ℚ)
  clob_token_ids : List Str
  start_date : Option ℚ
  end_date : Option ℚ
  created_at : Option ℚ
  updated_at : Option ℚ
  active : PyVal
  closed : PyVal
  raw : PyVal

/-- Embeds method `Market.tokens`: pair outcome labels, token ids, and prices
positionally, tolerating length mismatches. -/
def Market.tokens (m : Market) : List Token :=
  m.clob_token_ids.enum.map fun it =>
    ⟨it.2, m.outcomes[it.1]?, (m.outcome_prices[it.1]?).join⟩

/-- Embeds dataclass `Event`. -/
structure Event where
  id : Str
  title : PyVal
  slug : PyVal
  description : PyVal
  start_date : Option ℚ
  end_date : Option ℚ
  created_at : Option ℚ
  updated_at : Option ℚ
  active : PyVal
  closed : PyVal
  volume : Option ℚ
  liquidity : Option ℚ
  markets : Option (List Market)
  raw : PyVal

/-- Embeds dataclass `L2Credentials`. -/
structure L2Credentials where
  api_key : Option Str
  api_secret : Option Str
  api_passphrase : Option Str
  address : Option Str

/-- Wrap an optional integer as a parameter value. -/
def optInt : Option ℤ → PyVal
  | some n => .int n
  | Option.none => .none

/-- Wrap an optional string as a parameter value. -/
def optStr : Option Str → PyVal
  | some s => .str s
  | Option.none => .none

/-- Wrap an optional boolean as a parameter value. -/
def optBool : Option Bool → PyVal
  | some b => .bool b
  | Option.none => .none

/-- Wrap an optional float as a parameter value. -/
def optFloat : Option ℚ → PyVal
  | some q => .float q
  | Option.none => .none

/-! ### The as-of visibility filter -/

/-- Key-scanning loop of `_is_visible`: the first candidate key whose value
parses as a datetime decides visibility; no resolvable key means invisible. -/
def isVisibleLoop (t : ℚ) (item : PyVal) : List Str → Bool
  | [] => false
  | k :: ks =>
    match parse_datetime (dictGet item k) with
    | some seen => seen ≤ t
    | Option.none => isVisibleLoop t item ks

/-- Embeds `_is_visible` from src/utils/sdk.py. -/
def is_visible (asOf : Option ℚ) (item : PyVal) (dateKeys : List Str) : Bool :=
  match asOf with
  | Option.none => true
  | some t => isVisibleLoop t item dateKeys

/-- Embeds `_filter_by_date` from src/utils/sdk.py. -/
def filter_by_date (asOf : Option ℚ) (items : List PyVal) (dateKeys : List Str) : List PyVal :=
  match asOf with
  | Option.none => items
  | some _ => items.filter fun item => is_visible asOf item dateKeys

/-- The visibility timestamp of a record: the value of the first candidate key
that parses as a datetime (the quantity `_is_visible` compares against the
reference). -/
def visTimestamp (item : PyVal) : List Str → Option ℚ
  | [] => Option.none
  | k :: ks =>
    match parse_datetime (dictGet item k) with
    | some seen => some seen
    | Option.none => visTimestamp item ks

/-- Candidate creation keys used for events. -/
def eventDateKeys : List Str := [strLit "createdAt", strLit "creationDate"]

/-- Candidate creation keys used for markets. -/
def marketDateKeys : List Str := [strLit "createdAt"]

/-! ### Price history and token prices -/

/-- Numeric value of a payload entry (the `t` field of a history point is used
in comparisons and `fromtimestamp`; the source would raise `TypeError` on
non-numeric entries, which the embedding totalizes to a skip). -/
def numVal : PyVal → Option ℚ
  | .bool b => some (qOfInt (if b then 1 else 0))
  | .int n => some (qOfInt n)
  | .float q => some q
  | _ => Option.none

/-- Stable insertion into a timestamp-sorted list (new point goes after equal
timestamps, matching Python's stable `sorted`). -/
def insertByTs (p : PricePoint) : List PricePoint → List PricePoint
  | [] => [p]
  | q :: rest => if q.timestamp ≤ p.timestamp then q :: insertByTs p rest else p :: q :: rest

/-- Stable ascending sort by timestamp (Python `sorted(key=timestamp)`). -/
def sortByTs (l : List PricePoint) : List PricePoint :=
  l.foldl (fun acc p => insertByTs p acc) []

/-- History points of a `/prices-history` response: keep items whose `t` and
`p` are present (and numeric — see `numVal`), drop points after the as-of
truncated timestamp when set.  `float(price)` on a non-numeric string would
raise in the source; the embedding totalizes that to a skip as well. -/
def historyPoints (asOf : Option ℚ) : List PyVal → List PricePoint
  | [] => []
  | item :: rest =>
    let keep :=
      match numVal (dictGet item (strLit "t")), parse_float (dictGet item (strLit "p")) with
      | some ts, some pr =>
        match asOf with
        | some t => if ts > qOfInt (pyTrunc t) then Option.none else some (PricePoint.mk ts pr)
        | Option.none => some (PricePoint.mk ts pr)
      | _, _ => Option.none
    match keep with
    | some pt => pt :: historyPoints asOf rest
    | Option.none => historyPoints asOf rest

/-- Embeds `PolymarketSDK.get_price_history` from src/utils/sdk.py: clamp the
window to as-of, translate a named interval into a start timestamp, fetch,
filter and sort the points. -/
def get_price_history (env : Env) (asOf : Option ℚ) (market : Str)
    (startTs endTs : Option ℤ) (interval : Option Str) (fidelity : Option ℤ) :
    Except PyErr (List PricePoint) := do
  let args : Option ℤ × Option ℤ × Option Str :=
    match asOf with
    | Option.none => (startTs, endTs, interval)
    | some t =>
      let ts := pyTrunc t
      let endTs2 :=
        match endTs with
        | Option.none => some ts
        | some e => if ts < e then some ts else some e
      match interval with
      | Option.none => (startTs, endTs2, Option.none)
      | some iv =>
        match interval_to_seconds iv, startTs with
        | some s, Option.none => (some (max (ts - s) 0), endTs2, Option.none)
        | _, _ => (startTs, endTs2, Option.none)
  let data ← getJson env .clob (strLit "/prices-history")
    [(strLit "market", .str market), (strLit "startTs", optInt args.1),
     (strLit "endTs", optInt args.2.1), (strLit "interval", optStr args.2.2),
     (strLit "fidelity", optInt fidelity)] false
  let history := dictGet data (strLit "history")
  if !pyTruthy history then
    pure []
  else
    match history with
    | .list items => pure (sortByTs (historyPoints asOf items))
    | _ => pure []

/-- Embeds `PolymarketSDK._prices_as_of` from src/utils/sdk.py. -/
def prices_as_of (env : Env) (asOf : Option ℚ) (tokenIds : List Str) :
    Except PyErr (List (Option ℚ)) :=
  match asOf with
  | Option.none => .ok []
  | some _ =>
    tokenIds.mapM fun tid =>
      (get_price_history env asOf tid Option.none Option.none Option.none Option.none).map
        fun h => h.getLast?.map (·.price)

/-- Embeds `PolymarketSDK.get_token_midpoint` from src/utils/sdk.py.  In the
live path, `float(mid)` on a malformed value would raise; the embedding
totalizes it via `_parse_float` (the as-of path, the verified one, is exact). -/
def get_token_midpoint (env : Env) (asOf : Option ℚ) (tokenId : Str) :
    Except PyErr (Option ℚ) := do
  match asOf with
  | some _ =>
    (get_price_history env asOf tokenId Option.none Option.none Option.none Option.none).map
      fun h => h.getLast?.map (·.price)
  | Option.none => do
    let data ← getJson env .clob (strLit "/midpoint") [(strLit "token_id", .str tokenId)] false
    match dictGet data (strLit "mid") with
    | .none => pure Option.none
    | v => pure (parse_float v)

/-- Embeds `PolymarketSDK.get_token_price` from src/utils/sdk.py (same live
totalization note as `get_token_midpoint`). -/
def get_token_price (env : Env) (asOf : Option ℚ) (tokenId : Str) (side : Str) :
    Except PyErr (Option ℚ) := do
  match asOf with
  | some _ =>
    (get_price_history env asOf tokenId Option.none Option.none Option.none Option.none).map
      fun h => h.getLast?.map (·.price)
  | Option.none => do
    let data ← getJson env .clob (strLit "/price")
      [(strLit "token_id", .str tokenId), (strLit "side", .str side)] false
    match dictGet data (strLit "price") with
    | .none => pure Option.none
    | v => pure (parse_float v)

/-! ### Record constructors -/

/-- The `None`-padding `_market_from_raw` applies to as-of prices that are
shorter than the outcome list. -/
def padPrices (outcomes : List Str) (ps : List (Option ℚ)) : List (Option ℚ) :=
  if ps.length < outcomes.length
  then ps ++ List.replicate (outcomes.length - ps.length) Option.none
  else ps

/-- Outcome-price computation of `_market_from_raw`: the parsed raw
`outcomePrices` when live; `_prices_as_of`, padded with `None` up to the
number of outcomes, when as-of is set. -/
def marketPricesOf (env : Env) (asOf : Option ℚ) (outcomes clobTokenIds : List Str)
    (prices0 : List (Option ℚ)) : Except PyErr (List (Option ℚ)) :=
  match asOf with
  | Option.none => pure prices0
  | some _ => (prices_as_of env asOf clobTokenIds).map (padPrices outcomes)

/-- Embeds `PolymarketSDK._market_from_raw` from src/utils/sdk.py.  With as-of
set, outcome prices come from `_prices_as_of` (padded with `None` up to the
number of outcomes), the live-mutable fields are nulled, and the retained raw
payload is rebuilt from the safe keys. -/
def market_from_raw (env : Env) (asOf : Option ℚ) (raw : PyVal) : Except PyErr Market := do
  let outcomes := parse_json_list (dictGet raw (strLit "outcomes"))
  let clob_token_ids := parse_json_list (dictGet raw (strLit "clobTokenIds"))
  let prices0 := (parse_json_list (dictGet raw (strLit "outcomePrices"))).map
    fun item => parse_float (.str item)
  let outcome_prices ← marketPricesOf env asOf outcomes clob_token_ids prices0
  let live : PyVal × PyVal × Option ℚ × PyVal :=
    (dictGet raw (strLit "active"), dictGet raw (strLit "closed"),
     parse_datetime (dictGet raw (strLit "updatedAt")), raw)
  let fin : PyVal × PyVal × Option ℚ × PyVal :=
    match asOf with
    | Option.none => live
    | some _ =>
      (.none, .none, Option.none,
       .dict [(strLit "id", .str (pyStr (dictGet raw (strLit "id")))),
              (strLit "question", dictGet raw (strLit "question")),
              (strLit "slug", dictGet raw (strLit "slug")),
              (strLit "description", dictGet raw (strLit "description")),
              (strLit "outcomes", dictGet raw (strLit "outcomes")),
              (strLit "clobTokenIds", dictGet raw (strLit "clobTokenIds")),
              (strLit "startDate", dictGet raw (strLit "startDate")),
              (strLit "endDate", dictGet raw (strLit "endDate")),
              (strLit "createdAt", dictGet raw (strLit "createdAt"))])
  let raw2 := fin.2.2.2
  pure
    { id := pyStr (dictGet raw2 (strLit "id"))
      question := dictGet raw2 (strLit "question")
      slug := dictGet raw2 (strLit "slug")
      description := dictGet raw2 (strLit "description")
      outcomes := outcomes
      outcome_prices := outcome_prices
      clob_token_ids := clob_token_ids
      start_date := parse_datetime (dictGet raw2 (strLit "startDate"))
      end_date := parse_datetime (dictGet raw2 (strLit "endDate"))
      created_at := parse_datetime (dictGet raw2 (strLit "createdAt"))
      updated_at := fin.2.2.1
      active := fin.1
      closed := fin.2.1
      raw := raw2 }

/-- Nested-markets computation of `_event_from_raw`: when requested and the
raw payload carries a list, the date-filtered entries are normalized. -/
def eventMarketsOf (env : Env) (asOf : Option ℚ) (includeMarkets : Bool) (raw : PyVal) :
    Except PyErr (Option (List Market)) :=
  match includeMarkets, dictGet raw (strLit "markets") with
  | true, .list items =>
    ((filter_by_date asOf items marketDateKeys).mapM (market_from_raw env asOf)).map some
  | _, _ => pure Option.none

/-- Embeds `PolymarketSDK._event_from_raw` from src/utils/sdk.py: nested
markets are themselves date-filtered and as-of normalized; with as-of set the
live-mutable fields are nulled and the retained raw payload rebuilt. -/
def event_from_raw (env : Env) (asOf : Option ℚ) (includeMarkets : Bool) (raw : PyVal) :
    Except PyErr Event := do
  let markets : Option (List Market) ← eventMarketsOf env asOf includeMarkets raw
  let live : PyVal × PyVal × Option ℚ × Option ℚ × Option ℚ × PyVal :=
    (dictGet raw (strLit "active"), dictGet raw (strLit "closed"),
     parse_float (dictGet raw (strLit "volume")),
     parse_float (dictGet raw (strLit "liquidity")),
     parse_datetime (dictGet raw (strLit "updatedAt")), raw)
  let fin : PyVal × PyVal × Option ℚ × Option ℚ × Option ℚ × PyVal :=
    match asOf with
    | Option.none => live
    | some _ =>
      (.none, .none, Option.none, Option.none, Option.none,
       .dict [(strLit "id", .str (pyStr (dictGet raw (strLit "id")))),
              (strLit "title", dictGet raw (strLit "title")),
              (strLit "slug", dictGet raw (strLit "slug")),
              (strLit "description", dictGet raw (strLit "description")),
              (strLit "startDate", dictGet raw (strLit "startDate")),
              (strLit "endDate", dictGet raw (strLit "endDate")),
              (strLit "createdAt", dictGet raw (strLit "createdAt")),
              (strLit "creationDate", dictGet raw (strLit "creationDate")),
              (strLit "markets", .none)])
  let raw2 := fin.2.2.2.2.2
  pure
    { id := pyStr (dictGet raw2 (strLit "id"))
      title := dictGet raw2 (strLit "title")
      slug := dictGet raw2 (strLit "slug")
      description := dictGet raw2 (strLit "description")
      start_date := parse_datetime (dictGet raw2 (strLit "startDate"))
      end_date := parse_datetime (dictGet raw2 (strLit "endDate"))
      created_at := parse_datetime
        (pyOr (dictGet raw2 (strLit "createdAt")) (dictGet raw2 (strLit "creationDate")))
      updated_at := fin.2.2.2.2.1
      active := fin.1
      closed := fin.2.1
      volume := fin.2.2.1
      liquidity := fin.2.2.2.1
      markets := markets
      raw := raw2 }

/-! ### Gamma listing and by-id/by-slug endpoints

The source assembles the query dict from its many keyword arguments and lets
`_get_json` drop the `None` entries; the embedding takes the assembled
parameter list directly (the claims quantify over it). -/

/-- Embeds `PolymarketSDK.list_events` from src/utils/sdk.py. -/
def list_events (env : Env) (asOf : Option ℚ) (params : List (Str × PyVal))
    (includeMarkets : Bool) : Except PyErr (List Event) := do
  let data ← getJson env .gamma (strLit "/events") params false
  match data with
  | .list items =>
    (filter_by_date asOf items eventDateKeys).mapM (event_from_raw env asOf includeMarkets)
  | _ => pure []

/-- Embeds `PolymarketSDK.get_event_by_id` from src/utils/sdk.py. -/
def get_event_by_id (env : Env) (asOf : Option ℚ) (tid : Str) (includeMarkets : Bool) :
    Except PyErr (Option Event) := do
  let data ← getJson env .gamma (strLit "/events/" ++ tid) [] false
  match data with
  | .dict _ =>
    if !is_visible asOf data eventDateKeys then pure Option.none
    else (event_from_raw env asOf includeMarkets data).map some
  | _ => pure Option.none

/-- Embeds `PolymarketSDK.get_event_by_slug` from src/utils/sdk.py. -/
def get_event_by_slug (env : Env) (asOf : Option ℚ) (slug : Str) (includeMarkets : Bool) :
    Except PyErr (Option Event) := do
  let data ← getJson env .gamma (strLit "/events/slug/" ++ slug) [] false
  match data with
  | .dict _ =>
    if !is_visible asOf data eventDateKeys then pure Option.none
    else (event_from_raw env asOf includeMarkets data).map some
  | _ => pure Option.none

/-- Embeds `PolymarketSDK.list_markets` from src/utils/sdk.py. -/
def list_markets (env : Env) (asOf : Option ℚ) (params : List (Str × PyVal)) :
    Except PyErr (List Market) := do
  let data ← getJson env .gamma (strLit "/markets") params false
  match data with
  | .list items =>
    (filter_by_date asOf items marketDateKeys).mapM (market_from_raw env asOf)
  | _ => pure []

/-- Embeds `PolymarketSDK.get_market_by_market_id` from src/utils/sdk.py. -/
def get_market_by_market_id (env : Env) (asOf : Option ℚ) (marketId : Str) :
    Except PyErr (Option Market) := do
  let data ← getJson env .gamma (strLit "/markets/" ++ marketId) [] false
  match data with
  | .dict _ =>
    if !is_visible asOf data marketDateKeys then pure Option.none
    else (market_from_raw env asOf data).map some
  | _ => pure Option.none

/-- Embeds `PolymarketSDK.get_market_by_slug` from src/utils/sdk.py. -/
def get_market_by_slug (env : Env) (asOf : Option ℚ) (slug : Str) :
    Except PyErr (Option Market) := do
  let data ← getJson env .gamma (strLit "/markets/slug/" ++ slug) [] false
  match data with
  | .dict _ =>
    if !is_visible asOf data marketDateKeys then pure Option.none
    else (market_from_raw env asOf data).map some
  | _ => pure Option.none

/-- Truthiness of an optional-integer keyword argument (`0` is falsy). -/
def optIntTruthy : Option ℤ → Bool
  | some n => n ≠ 0
  | Option.none => false

/-- Truthiness of an optional-string keyword argument (`""` is falsy). -/
def optStrTruthy : Option Str → Bool
  | some s => !s.isEmpty
  | Option.none => false

/-- Embeds `PolymarketSDK.get_market_tokens` from src/utils/sdk.py for a
`Market` argument (the string overload composes `get_market` first): history
is used when as-of is set or any price-history argument is truthy, the raw
`outcomePrices` fallback is allowed only when as-of is `None`. -/
def get_market_tokens (env : Env) (asOf : Option ℚ) (marketObj : Market)
    (priceSide : Option Str) (phStart phEnd : Option ℤ) (phInterval : Option Str)
    (phFidelity : Option ℤ) (fallbackToOutcomePrices : Bool) :
    Except PyErr (List Token) := do
  let useHistory := asOf.isSome || optIntTruthy phStart || optIntTruthy phEnd
    || optStrTruthy phInterval || optIntTruthy phFidelity
  let historyEndTs :=
    if useHistory && phEnd.isNone && phInterval.isNone then
      match asOf with
      | some t => some (pyTrunc t)
      | Option.none => phEnd
    else phEnd
  let allowFallback := fallbackToOutcomePrices && asOf.isNone
  marketObj.clob_token_ids.enum.mapM fun it => do
    let idx := it.1
    let tokenId := it.2
    let outcome := marketObj.outcomes[idx]?
    let price0 ←
      if useHistory then
        (get_price_history env asOf tokenId phStart historyEndTs phInterval phFidelity).map
          fun h => h.getLast?.map (·.price)
      else
        match priceSide with
        | some side => get_token_price env asOf tokenId side
        | Option.none => get_token_midpoint env asOf tokenId
    let price :=
      match price0 with
      | some p => some p
      | Option.none => if allowFallback then (marketObj.outcome_prices[idx]?).join else Option.none
    pure (Token.mk tokenId outcome price)

/-! ### Trades: public Data API -/

/-- Embeds `_format_list_param` from src/utils/sdk.py: `None`/empty gives
`None`, otherwise the comma-joined `str` of the values. -/
def format_list_param : Option (List PyVal) → Option Str
  | some (v :: vs) => some (joinSep [44] ((v :: vs).map pyStr))
  | _ => Option.none

/-- Embeds `PolymarketSDK._public_trade_from_raw` from src/utils/sdk.py. -/
def public_trade_from_raw (raw : PyVal) : PublicTrade :=
  { proxy_wallet := dictGet raw (strLit "proxyWallet")
    side := dictGet raw (strLit "side")
    asset := dictGet raw (strLit "asset")
    condition_id := dictGet raw (strLit "conditionId")
    size := parse_float (dictGet raw (strLit "size"))
    price := parse_float (dictGet raw (strLit "price"))
    timestamp := parse_unix_timestamp (dictGet raw (strLit "timestamp"))
    title := dictGet raw (strLit "title")
    slug := dictGet raw (strLit "slug")
    icon := dictGet raw (strLit "icon")
    event_slug := dictGet raw (strLit "eventSlug")
    outcome := dictGet raw (strLit "outcome")
    outcome_index := parse_int (dictGet raw (strLit "outcomeIndex"))
    name := dictGet raw (strLit "name")
    pseudonym := dictGet raw (strLit "pseudonym")
    bio := dictGet raw (strLit "bio")
    profile_image := dictGet raw (strLit "profileImage")
    profile_image_optimized := dictGet raw (strLit "profileImageOptimized")
    transaction_hash := dictGet raw (strLit "transactionHash")
    raw := raw }

/-- Normalization-and-filter loop of `get_trades`: skip non-dict items, build
each `PublicTrade`, and with as-of set drop trades with a missing or
post-reference timestamp. -/
def collectPublicTrades (asOf : Option ℚ) : List PyVal → List PublicTrade
  | [] => []
  | item :: rest =>
    match item with
    | .dict d =>
      let trade := public_trade_from_raw (.dict d)
      let keep :=
        match asOf with
        | Option.none => true
        | some t =>
          match trade.timestamp with
          | Option.none => false
          | some ts => !(ts > t)
      if keep then trade :: collectPublicTrades asOf rest
      else collectPublicTrades asOf rest
    | _ => collectPublicTrades asOf rest

/-- Embeds `PolymarketSDK.get_trades` from src/utils/sdk.py (public Data API). -/
def get_trades (env : Env) (asOf : Option ℚ) (limit offset : Option ℤ)
    (takerOnly : Option Bool) (filterType : Option Str) (filterAmount : Option ℚ)
    (market eventId : Option (List PyVal)) (user side : Option Str) :
    Except PyErr (List PublicTrade) := do
  let data ← getJson env .data (strLit "/trades")
    [(strLit "limit", optInt limit), (strLit "offset", optInt offset),
     (strLit "takerOnly", optBool takerOnly), (strLit "filterType", optStr filterType),
     (strLit "filterAmount", optFloat filterAmount),
     (strLit "market", optStr (format_list_param market)),
     (strLit "eventId", optStr (format_list_param eventId)),
     (strLit "user", optStr user), (strLit "side", optStr side)] false
  match data with
  | .list items => pure (collectPublicTrades asOf items)
  | _ => pure []

/-! ### Trades: CLOB (L2-authenticated, cursor-paginated) -/

/-- Embeds `PolymarketSDK._maker_order_from_raw` from src/utils/sdk.py. -/
def maker_order_from_raw (raw : PyVal) : MakerOrder :=
  { order_id := coerce_str (dictGet raw (strLit "order_id"))
    maker_address := dictGet raw (strLit "maker_address")
    owner := dictGet raw (strLit "owner")
    matched_amount := parse_float (dictGet raw (strLit "matched_amount"))
    fee_rate_bps := parse_float (dictGet raw (strLit "fee_rate_bps"))
    price := parse_float (dictGet raw (strLit "price"))
    asset_id := dictGet raw (strLit "asset_id")
    outcome := dictGet raw (strLit "outcome")
    side := dictGet raw (strLit "side")
    raw := raw }

/-- Maker-order legs of a raw trade: only a list value is scanned, and only
its dict entries are parsed. -/
def makerOrdersOf (raw : PyVal) : List MakerOrder :=
  match dictGet raw (strLit "maker_orders") with
  | .list items =>
    items.foldr
      (fun item acc =>
        match item with
        | .dict d => maker_order_from_raw (.dict d) :: acc
        | _ => acc) []
  | _ => []

/-- Embeds `PolymarketSDK._trade_from_raw` from src/utils/sdk.py: with as-of
set, a trade whose `last_update` postdates the reference has its `status` and
`last_update` nulled, and the retained raw payload is patched accordingly. -/
def trade_from_raw (asOf : Option ℚ) (raw : PyVal) : Trade :=
  let match_time := parse_datetime (dictGet raw (strLit "match_time"))
  let lastUpdate0 := parse_datetime (dictGet raw (strLit "last_update"))
  let status0 := dictGet raw (strLit "status")
  let redact : Bool :=
    match asOf, lastUpdate0 with
    | some t, some lu => decide (lu > t)
    | _, _ => false
  let status := if redact then PyVal.none else status0
  let last_update := if redact then Option.none else lastUpdate0
  let rawChanged :=
    asOf.isSome && last_update.isNone &&
      (match dictGet raw (strLit "last_update") with
       | .none => false
       | _ => true)
  let rawPayload :=
    if rawChanged then dictSet (dictSet raw (strLit "last_update") .none) (strLit "status") status
    else raw
  { id := coerce_str (dictGet raw (strLit "id"))
    taker_order_id := dictGet raw (strLit "taker_order_id")
    market := dictGet raw (strLit "market")
    asset_id := dictGet raw (strLit "asset_id")
    side := dictGet raw (strLit "side")
    size := parse_float (dictGet raw (strLit "size"))
    fee_rate_bps := parse_float (dictGet raw (strLit "fee_rate_bps"))
    price := parse_float (dictGet raw (strLit "price"))
    status := status
    match_time := match_time
    last_update := last_update
    outcome := dictGet raw (strLit "outcome")
    bucket_index := parse_int (dictGet raw (strLit "bucket_index"))
    owner := dictGet raw (strLit "owner")
    maker_address := dictGet raw (strLit "maker_address")
    maker_orders := makerOrdersOf raw
    transaction_hash := dictGet raw (strLit "transaction_hash")
    trader_side := pyOr (dictGet raw (strLit "trader_side")) (dictGet raw (strLit "type"))
    raw := rawPayload }

/-- Per-page normalization-and-filter loop of `get_clob_trades`: skip non-dict
items; with as-of set, drop trades whose `match_time or last_update` postdates
the reference. -/
def collectClobTrades (asOf : Option ℚ) : List PyVal → List Trade
  | [] => []
  | item :: rest =>
    match item with
    | .dict d =>
      let trade := trade_from_raw asOf (.dict d)
      let keep :=
        match asOf with
        | Option.none => true
        | some t =>
          match trade.match_time <|> trade.last_update with
          | some seen => !(seen > t)
          | Option.none => true
      if keep then trade :: collectClobTrades asOf rest
      else collectClobTrades asOf rest
    | _ => collectClobTrades asOf rest

/-- The loop-exit test `while cursor is not None and cursor != "LTE=":`
(negated): `None` or the terminal sentinel ends the loop; any other value —
of any type — continues it. -/
def cursorTerminal (cursor : PyVal) : Bool :=
  match cursor with
  | .none => true
  | .str s => s = strLit "LTE="
  | _ => false

/-- The cursor loop of `get_clob_trades`, fuel-indexed and instrumented with
the list of requests issued.  A `Option.none` first component means the fuel
ran out, i.e. the loop had not terminated after `fuel` iterations. -/
def clobLoop (env : Env) (asOf : Option ℚ) (params : List (Str × PyVal))
    (onlyFirstPage : Bool) (maxPages : Option ℕ) :
    ℕ → PyVal → ℕ → List Trade → Option (Except PyErr (List Trade)) × List Request
  | 0, _, _, _ => (Option.none, [])
  | fuel + 1, cursor, pages, acc =>
    if cursorTerminal cursor then (some (.ok acc), [])
    else
      let req : Request :=
        ⟨.clob, strLit "/data/trades",
         filterParams (params ++ [(strLit "next_cursor", cursor)]), true⟩
      match getJsonCore (env req) with
      | .error e => (some (.error e), [req])
      | .ok data =>
        let step : Option (PyVal × PyVal) :=
          match data with
          | .dict d => some (pyOr (dictGet (.dict d) (strLit "data")) (.list []),
                             dictGet (.dict d) (strLit "next_cursor"))
          | .list xs => some (.list xs, .none)
          | _ => Option.none
        match step with
        | Option.none => (some (.ok acc), [req])
        | some (rawTrades, cursor2) =>
          let newAcc := acc ++
            (match rawTrades with
             | .list items => collectClobTrades asOf items
             | _ => [])
          let pages2 := pages + 1
          if onlyFirstPage then (some (.ok newAcc), [req])
          else
            match maxPages with
            | some m =>
              if m ≤ pages2 then (some (.ok newAcc), [req])
              else
                let r := clobLoop env asOf params onlyFirstPage maxPages fuel cursor2 pages2 newAcc
                (r.1, req :: r.2)
            | Option.none =>
              let r := clobLoop env asOf params onlyFirstPage maxPages fuel cursor2 pages2 newAcc
              (r.1, req :: r.2)

/-- Embeds `PolymarketSDK.get_clob_trades` from src/utils/sdk.py, fuel-indexed
and instrumented with the issued requests.  The L2 header construction
(environment credentials, wall clock) is outside the embedding; only the
presence of headers matters to control flow (`if not headers: raise
ValueError`), modelled by `headersPresent`.  Note the as-of window clamp runs
before the header check, exactly as in the source. -/
def get_clob_trades (env : Env) (asOf : Option ℚ) (fuel : ℕ)
    (id maker_address market asset_id : Option Str) (before after : PyVal)
    (next_cursor : Option Str) (onlyFirstPage : Bool) (maxPages : Option ℕ)
    (headersPresent : Bool) : Option (Except PyErr (List Trade)) × List Request :=
  let beforeValue := parse_int before
  let afterValue := parse_int after
  let earlyEmpty : Bool :=
    match asOf, afterValue with
    | some t, some a => decide (pyTrunc t < a)
    | _, _ => false
  if earlyEmpty then (some (.ok []), [])
  else
    let beforeValue2 :=
      match asOf with
      | Option.none => beforeValue
      | some t =>
        let ts := pyTrunc t
        match beforeValue with
        | Option.none => some ts
        | some b => if ts < b then some ts else some b
    if !headersPresent then (some (.error .valueError), [])
    else
      clobLoop env asOf
        [(strLit "id", optStr id), (strLit "maker_address", optStr maker_address),
         (strLit "market", optStr market), (strLit "asset_id", optStr asset_id),
         (strLit "before", optInt beforeValue2), (strLit "after", optInt afterValue)]
        onlyFirstPage maxPages fuel
        (pyOr (optStr next_cursor) (.str (strLit "MA=="))) 0 []

/-! ### src/scripts/pull_trades.py: the dual-pass deduplicating trade driver

Constants of the script: `PAGE_LIMIT = 10000`, `MAX_OFFSET = 10000`,
`MIN_VALUE_USD = 500.0`.  The accumulated output pairs each kept entry with
its composite dedup key (the script keeps the keys in a separate `seen` set;
carrying them beside the entries is equivalent — an entry is appended exactly
when its key is appended — and makes the dedup property statable). -/

/-- `str(trade.timestamp)` — an aware datetime or `None`. -/
def optTsRender : Option ℚ → Str
  | some q => instantRender 32 q
  | Option.none => strLit "None"

/-- `str(trade.size)` / `str(trade.price)` — a float or `None`. -/
def optFloatRender : Option ℚ → Str
  | some q => floatRender q
  | Option.none => strLit "None"

/-- The composite natural key of `fetch_trades_for_market`:
`f"{tx}-{timestamp}-{account}-{conditionId}-{side}-{size}-{price}"`. -/
def tradeKey (t : PublicTrade) (account : PyVal) : Str :=
  pyStr t.transaction_hash ++ [45] ++ optTsRender t.timestamp ++ [45] ++ pyStr account ++ [45]
    ++ pyStr t.condition_id ++ [45] ++ pyStr t.side ++ [45] ++ optFloatRender t.size
    ++ [45] ++ optFloatRender t.price

/-- One output row of `fetch_trades_for_market` (`timestamp` is the isoformat
string or `None`). -/
structure TradeEntry where
  account : PyVal
  side : PyVal
  value : ℚ
  timestamp : PyVal

/-- The per-page body of `fetch_trades_for_market`: drop entries without price
or size, below the value floor, or without an account; then append unless the
composite key was already seen. -/
def processTradePage (seen : List Str) (acc : List (Str × TradeEntry)) :
    List PublicTrade → List Str × List (Str × TradeEntry)
  | [] => (seen, acc)
  | t :: rest =>
    let step : Option (Str × TradeEntry) :=
      match t.price, t.size with
      | some price, some size =>
        let value := qMul price size
        if value < 500 then Option.none
        else if !pyTruthy t.proxy_wallet then Option.none
        else
          let key := tradeKey t t.proxy_wallet
          if seen.contains key then Option.none
          else
            some (key,
              { account := t.proxy_wallet
                side := pyOr t.outcome t.side
                value := value
                timestamp :=
                  match t.timestamp with
                  | some q => .str (instantRender 84 q)
                  | Option.none => .none })
      | _, _ => Option.none
    match step with
    | some (key, entry) => processTradePage (seen ++ [key]) (acc ++ [(key, entry)]) rest
    | Option.none => processTradePage seen acc rest

/-- The per-side offset loop of `fetch_trades_for_market` (fuel-indexed;
`Option.none` means the fuel ran out before the loop exited). -/
def fetchSideLoop (env : Env) (cid : Str) (side : Str) :
    ℕ → ℤ → List Str × List (Str × TradeEntry) →
    Option (Except PyErr (List Str × List (Str × TradeEntry)))
  | 0, _, _ => Option.none
  | fuel + 1, offset, st =>
    if offset > 10000 then some (.ok st)
    else
      match get_trades env Option.none (some 10000) (some offset) (some false)
        (some (strLit "CASH")) (some 500) (some [.str cid]) Option.none Option.none
        (some side) with
      | .error e => some (.error e)
      | .ok page =>
        if page.isEmpty then some (.ok st)
        else
          let st2 := processTradePage st.1 st.2 page
          if page.length < 10000 then some (.ok st2)
          else if offset + 10000 > 10000 then some (.ok st2)
          else fetchSideLoop env cid side fuel (offset + 10000) st2

/-- Embeds `fetch_trades_for_market` from src/scripts/pull_trades.py: the BUY
pass then the SELL pass, sharing one `seen` set and one output list. -/
def fetch_trades_for_market (env : Env) (cid : Str) (fuel : ℕ) :
    Option (Except PyErr (List (Str × TradeEntry))) :=
  match fetchSideLoop env cid (strLit "BUY") fuel 0 ([], []) with
  | Option.none => Option.none
  | some (.error e) => some (.error e)
  | some (.ok st1) =>
    match fetchSideLoop env cid (strLit "SELL") fuel 0 st1 with
    | Option.none => Option.none
    | some (.error e) => some (.error e)
    | some (.ok st2) => some (.ok st2.2)

/-! ### src/scripts/pull_events.py: the offset-paginated event puller -/

/-- One summary row written to `data/events.json`. -/
structure EventSummary where
  id : Str
  title : PyVal
  slug : PyVal
  volume : Option ℚ
  created_at : Option Str

/-- The summary projection of `pull_all_events` (`created_at` is
`strftime("%Y-%m-%d")` when present). -/
def summarizeEvent (e : Event) : EventSummary :=
  ⟨e.id, e.title, e.slug, e.volume, e.created_at.map strfDate⟩

/-- Slug keywords excluded by pull_events.py. -/
def excludeKeywords : List Str := [strLit "btc", strLit "eth", strLit "xrp", strLit "sol"]

/-- ASCII lowercasing (the slugs and keywords involved are ASCII). -/
def lowerStr (s : Str) : Str := s.map fun c => if 65 ≤ c && c ≤ 90 then c + 32 else c

/-- Test that one string starts with another. -/
def leadsWith : Str → Str → Bool
  | [], _ => true
  | _ :: _, [] => false
  | a :: xs, b :: ys => a = b && leadsWith xs ys

/-- Python `kw in s`: contiguous substring test. -/
def hasSub (kw : Str) : Str → Bool
  | [] => kw.isEmpty
  | c :: rest => leadsWith kw (c :: rest) || hasSub kw rest

/-- The exclusion test `any(kw in slug for kw in exclude_keywords)` over
`(event.slug or "").lower()`. -/
def slugExcluded (e : Event) : Bool :=
  let slug := lowerStr (pyStr (pyOr e.slug (.str [])))
  excludeKeywords.any fun kw => hasSub kw slug

/-- Lexicographic order on code-point strings (Python `<` on `str`). -/
def strLt : Str → Str → Bool
  | [], [] => false
  | [], _ :: _ => true
  | _ :: _, [] => false
  | a :: xs, b :: ys => if a < b then true else if b < a then false else strLt xs ys

/-- Sort key of the final sort: `x["created_at"] or ""`. -/
def summarySortKey (s : EventSummary) : Str := s.created_at.getD []

/-- Stable descending insertion (Python `list.sort(key=..., reverse=True)`:
equal keys keep their original relative order). -/
def insertDesc (x : EventSummary) : List EventSummary → List EventSummary
  | [] => [x]
  | y :: rest =>
    if strLt (summarySortKey y) (summarySortKey x) then x :: y :: rest
    else y :: insertDesc x rest

/-- Stable descending sort by creation date. -/
def sortSummaries (l : List EventSummary) : List EventSummary :=
  l.foldl (fun acc x => insertDesc x acc) []

/-- The `while True` offset loop of `pull_all_events` (fuel-indexed;
`Option.none` means the fuel ran out before the loop exited). -/
def pullLoop (env : Env) : ℕ → ℤ → List EventSummary →
    Option (Except PyErr (List EventSummary))
  | 0, _, _ => Option.none
  | fuel + 1, offset, acc =>
    match list_events env Option.none
      [(strLit "limit", .int 500), (strLit "offset", .int offset)] false with
    | .error e => some (.error e)
    | .ok batch =>
      if batch.isEmpty then some (.ok acc)
      else
        let acc2 := acc ++ (batch.filter fun e => !slugExcluded e).map summarizeEvent
        if batch.length < 500 then some (.ok acc2)
        else pullLoop env fuel (offset + 500) acc2

/-- Embeds `pull_all_events` from src/scripts/pull_events.py. -/
def pull_all_events (env : Env) (fuel : ℕ) : Option (Except PyErr (List EventSummary)) :=
  (pullLoop env fuel 0 []).map (Except.map sortSummaries)

/-- Look up a query parameter by key in an issued request's parameter list. -/
def lookupParam (ps : List (Str × PyVal)) (k : Str) : Option PyVal :=
  (ps.find? fun kv => kv.1 = k).map (·.2)

/-- A price-history sample (integer epoch second, price) as the payload dict
the CLOB returns. -/
def samplePoint (s : ℤ × ℚ) : PyVal :=
  .dict [(strLit "t", .int s.1), (strLit "p", .float s.2)]

/-- The price of the last sample whose timestamp is at or before the
reference instant (the quantity claim C3 specifies). -/
def lastAtOrBefore (ref : ℚ) (samples : List (ℤ × ℚ)) : Option ℚ :=
  ((samples.filter fun s => qOfInt s.1 ≤ ref).getLast?).map (·.2)

/-- The `/prices-history` request issued for a token when as-of is set and no
explicit history window is passed (after `None`-filtering of parameters). -/
def priceHistoryReq (tok : Str) (ts : ℤ) : Request :=
  ⟨.clob, strLit "/prices-history",
   [(strLit "market", .str tok), (strLit "endTs", .int ts)], false⟩

/-! ### Witness data: concrete environments and expected records -/

/-- An oracle on which every request fails: exercises code paths that must
not touch the network. -/
def envExn : Env := fun _ => .exn

/-- The redacted raw payload `_event_from_raw` rebuilds from an empty dict. -/
def c2EventRaw : PyVal :=
  .dict [(strLit "id", .str (strLit "None")), (strLit "title", .none),
         (strLit "slug", .none), (strLit "description", .none),
         (strLit "startDate", .none), (strLit "endDate", .none),
         (strLit "createdAt", .none), (strLit "creationDate", .none),
         (strLit "markets", .none)]

/-- The event `_event_from_raw` produces from an empty dict under as-of. -/
def c2Event : Event :=
  { id := strLit "None", title := .none, slug := .none, description := .none,
    start_date := Option.none, end_date := Option.none, created_at := Option.none,
    updated_at := Option.none, active := .none, closed := .none,
    volume := Option.none, liquidity := Option.none, markets := Option.none,
    raw := c2EventRaw }

/-- The redacted raw payload `_market_from_raw` rebuilds from an empty dict. -/
def c2MarketRaw : PyVal :=
  .dict [(strLit "id", .str (strLit "None")), (strLit "question", .none),
         (strLit "slug", .none), (strLit "description", .none),
         (strLit "outcomes", .none), (strLit "clobTokenIds", .none),
         (strLit "startDate", .none), (strLit "endDate", .none),
         (strLit "createdAt", .none)]

/-- The market `_market_from_raw` produces from an empty dict under as-of. -/
def c2Market : Market :=
  { id := strLit "None", question := .none, slug := .none, description := .none,
    outcomes := [], outcome_prices := [], clob_token_ids := [],
    start_date := Option.none, end_date := Option.none, created_at := Option.none,
    updated_at := Option.none, active := .none, closed := .none, raw := c2MarketRaw }

/-- The single request `get_clob_trades` issues in the C10 witness scenario
(as-of 100, caller `before` 500 clamped down to 100, all other filters unset). -/
def c10Req : Request :=
  ⟨.clob, strLit "/data/trades",
   [(strLit "before", .int 100), (strLit "next_cursor", .str (strLit "MA=="))], true⟩

/-- A visible raw event (created 2023) for the C1 witness scenario. -/
def c1EventRawVis : PyVal :=
  .dict [(strLit "id", .int 1), (strLit "createdAt", .str (strLit "2023-01-01T00:00:00Z"))]

/-- Entries of the future raw event (created 2025) of the C1 witness scenario. -/
def c1FutD : List (Str × PyVal) :=
  [(strLit "id", .int 2), (strLit "createdAt", .str (strLit "2025-01-01T00:00:00Z"))]

/-- A future raw event (created 2025) for the C1 witness scenario. -/
def c1EventRawFut : PyVal := .dict c1FutD

/-- A raw event without any resolvable creation timestamp. -/
def c1EventRawNoTs : PyVal := .dict [(strLit "id", .int 3)]

/-- A visible raw market (created 2023-06) for the C1 witness scenario. -/
def c1MarketRawVis : PyVal :=
  .dict [(strLit "id", .int 7), (strLit "createdAt", .str (strLit "2023-06-01T00:00:00Z"))]

/-- Entries of the future raw market (created 2025-06). -/
def c1MFutD : List (Str × PyVal) :=
  [(strLit "id", .int 9), (strLit "createdAt", .str (strLit "2025-06-01T00:00:00Z"))]

/-- A future raw market (created 2025-06). -/
def c1MarketRawFut : PyVal := .dict c1MFutD

/-- The C1 witness oracle: listings with one visible, one future, and one
timestamp-less record; by-id/by-slug endpoints returning future records. -/
def envC1 : Env := fun req =>
  if req.path = strLit "/events" then
    .ok 200 (some (.list [c1EventRawVis, c1EventRawFut, c1EventRawNoTs]))
  else if req.path = strLit "/markets" then
    .ok 200 (some (.list [c1MarketRawVis]))
  else if req.path = strLit "/events/" ++ strLit "42" then
    .ok 200 (some c1EventRawFut)
  else if req.path = strLit "/events/slug/" ++ strLit "future-event" then
    .ok 200 (some c1EventRawFut)
  else if req.path = strLit "/markets/" ++ strLit "9" then
    .ok 200 (some c1MarketRawFut)
  else if req.path = strLit "/markets/slug/" ++ strLit "future-market" then
    .ok 200 (some c1MarketRawFut)
  else .exn

/-- The as-of reference of the C1 witness scenario: 2024-01-01T00:00:00Z. -/
def c1Ref : ℚ := qOfInt 1704067200

/-- The normalized event the C1 listing returns (only the visible raw). -/
def c1Event : Event :=
  { id := strLit "1", title := .none, slug := .none, description := .none,
    start_date := Option.none, end_date := Option.none,
    created_at := some (qOfInt 1672531200),
    updated_at := Option.none, active := .none, closed := .none,
    volume := Option.none, liquidity := Option.none, markets := Option.none,
    raw := .dict [(strLit "id", .str (strLit "1")), (strLit "title", .none),
                  (strLit "slug", .none), (strLit "description", .none),
                  (strLit "startDate", .none), (strLit "endDate", .none),
                  (strLit "createdAt", .str (strLit "2023-01-01T00:00:00Z")),
                  (strLit "creationDate", .none), (strLit "markets", .none)] }

/-- The normalized market the C1 listing returns (only the visible raw). -/
def c1Market : Market :=
  { id := strLit "7", question := .none, slug := .none, description := .none,
    outcomes := [], outcome_prices := [], clob_token_ids := [],
    start_date := Option.none, end_date := Option.none,
    created_at := some (qOfInt 1685577600),
    updated_at := Option.none, active := .none, closed := .none,
    raw := .dict [(strLit "id", .str (strLit "7")), (strLit "question", .none),
                  (strLit "slug", .none), (strLit "description", .none),
                  (strLit "outcomes", .none), (strLit "clobTokenIds", .none),
                  (strLit "startDate", .none), (strLit "endDate", .none),
                  (strLit "createdAt", .str (strLit "2023-06-01T00:00:00Z"))] }

/-- The constant sample history of the C3 witness oracle. -/
def c3Samples : List (ℤ × ℚ) := [(50, Rat.divInt 1 2), (100, Rat.divInt 3 4), (200, 1)]

/-- The C3 witness oracle: every `/prices-history` request gets the same
three-sample history; everything else fails. -/
def envC3 : Env := fun req =>
  if req.path = strLit "/prices-history" then
    .ok 200 (some (.dict [(strLit "history", .list (c3Samples.map samplePoint))]))
  else .exn

/-- A raw market with JSON-string outcome/token/price lists for the C3
witness (its live `outcomePrices` must be ignored under as-of). -/
def c3Raw : PyVal := .dict [
  (strLit "id", .int 5),
  (strLit "outcomes", .str (strLit "[\"Yes\", \"No\"]")),
  (strLit "clobTokenIds", .str (strLit "[\"tokA\", \"tokB\"]")),
  (strLit "outcomePrices", .str (strLit "[\"0.1\", \"0.2\"]"))]

/-- The market `_market_from_raw` produces from `c3Raw` at as-of 150. -/
def c3Market : Market :=
  { id := strLit "5", question := .none, slug := .none, description := .none,
    outcomes := [strLit "Yes", strLit "No"],
    outcome_prices := [some (Rat.divInt 3 4), some (Rat.divInt 3 4)],
    clob_token_ids := [strLit "tokA", strLit "tokB"],
    start_date := Option.none, end_date := Option.none, created_at := Option.none,
    updated_at := Option.none, active := .none, closed := .none,
    raw := .dict [(strLit "id", .str (strLit "5")), (strLit "question", .none),
                  (strLit "slug", .none), (strLit "description", .none),
                  (strLit "outcomes", .str (strLit "[\"Yes\", \"No\"]")),
                  (strLit "clobTokenIds", .str (strLit "[\"tokA\", \"tokB\"]")),
                  (strLit "startDate", .none), (strLit "endDate", .none),
                  (strLit "createdAt", .none)] }

/-- A market object with a live outcome price, used to show the fallback is
not taken under as-of in `get_market_tokens`. -/
def c3MObj : Market :=
  { id := strLit "m", question := .none, slug := .none, description := .none,
    outcomes := [strLit "Yes"], outcome_prices := [some (qOfInt 9)],
    clob_token_ids := [strLit "tokA"],
    start_date := Option.none, end_date := Option.none, created_at := Option.none,
    updated_at := Option.none, active := .none, closed := .none, raw := .none }

/-- The parameter list `get_clob_trades` passes to its cursor loop when no
filters are supplied (all values `None`). -/
def clobBadParams : List (Str × PyVal) :=
  [(strLit "id", PyVal.none), (strLit "maker_address", PyVal.none),
   (strLit "market", PyVal.none), (strLit "asset_id", PyVal.none),
   (strLit "before", PyVal.none), (strLit "after", PyVal.none)]

/-- A server that answers every request with an empty data page and the
non-terminal cursor `"MA=="` — a response sequence the cursor loop of
`get_clob_trades` never escapes. -/
def clobEnvBad : Env := fun _ =>
  .ok 200 (some (.dict [(strLit "data", .list []),
                        (strLit "next_cursor", .str (strLit "MA=="))]))

/-- Divergence of the unbounded cursor loop against `clobEnvBad`: no fuel
bound suffices for the no-filter, no-max-pages `get_clob_trades` call to
return (`Option.none` = the loop had not exited within `fuel` iterations). -/
def clobDiverges : Prop :=
  ∀ fuel : ℕ,
    (get_clob_trades clobEnvBad Option.none fuel Option.none Option.none Option.none
      Option.none .none .none Option.none false Option.none true).1 = Option.none

/-- The first request of the no-filter `get_clob_trades` call (after
`None`-filtering only the initial cursor `"MA=="` survives). -/
def emptyClobReq : Request :=
  ⟨.clob, strLit "/data/trades", [(strLit "next_cursor", .str (strLit "MA=="))], true⟩

/-- An empty terminal CLOB page: no data rows and the terminal cursor. -/
def emptyClobPage : PyVal :=
  .dict [(strLit "data", .list []), (strLit "next_cursor", .str (strLit "LTE="))]

/-- The first request `pull_all_events` issues. -/
def eventsReq0 : Request :=
  ⟨.gamma, strLit "/events",
   [(strLit "limit", .int 500), (strLit "offset", .int 0)], false⟩

/-- The page at `offset` is decisive for the pull_events loop: every
successfully returned batch is shorter than the requested 500 (an erroring
page terminates the loop unconditionally). -/
def pullStops (env : Env) (offset : ℤ) : Prop :=
  ∀ batch, list_events env Option.none
    [(strLit "limit", .int 500), (strLit "offset", .int offset)] false = .ok batch →
    batch.length < 500

/-- A server answering every request with an empty JSON list. -/
def envEmptyList : Env := fun _ => .ok 200 (some (.list []))

/-- A server answering every request with the empty terminal CLOB page. -/
def envEmptyClob : Env := fun _ => .ok 200 (some emptyClobPage)

/-- A raw public trade (appears on both the BUY and the SELL page below:
the overlapping entry of the dedup scenario). -/
def c7RawA : PyVal := .dict [
  (strLit "transactionHash", .str (strLit "0xt1")),
  (strLit "proxyWallet", .str (strLit "0xab")),
  (strLit "conditionId", .str (strLit "c")),
  (strLit "side", .str (strLit "BUY")),
  (strLit "outcome", .str (strLit "Yes")),
  (strLit "price", .float 1),
  (strLit "size", .float 600)]

/-- A second raw public trade, distinct from `c7RawA` in every key field. -/
def c7RawB : PyVal := .dict [
  (strLit "transactionHash", .str (strLit "0xt2")),
  (strLit "proxyWallet", .str (strLit "0xab")),
  (strLit "conditionId", .str (strLit "c")),
  (strLit "side", .str (strLit "BUY")),
  (strLit "outcome", .str (strLit "No")),
  (strLit "price", .float 1),
  (strLit "size", .float 700)]

/-- A server whose BUY page is `[c7RawA, c7RawB]` and whose SELL page is
`[c7RawA]`: the two pagination pages overlap in exactly one entry. -/
def envC7 : Env := fun req =>
  match lookupParam req.params (strLit "side") with
  | some (.str s) =>
    if s = strLit "BUY" then .ok 200 (some (.list [c7RawA, c7RawB]))
    else .ok 200 (some (.list [c7RawA]))
  | _ => .ok 200 (some (.list []))

/-- The composite key of the overlapping trade. -/
def c7KeyA : Str := tradeKey (public_trade_from_raw c7RawA) (.str (strLit "0xab"))

/-- The composite key of the non-overlapping trade. -/
def c7KeyB : Str := tradeKey (public_trade_from_raw c7RawB) (.str (strLit "0xab"))

/-- The expected dual-pass output: one copy of each trade. -/
def c7Out : List (Str × TradeEntry) :=
  [(c7KeyA, { account := .str (strLit "0xab"), side := .str (strLit "Yes"),
              value := 600, timestamp := .none }),
   (c7KeyB, { account := .str (strLit "0xab"), side := .str (strLit "No"),
              value := 700, timestamp := .none })]

/-- The naive wall-time ISO rendering `YYYY-MM-DDTHH:MM:SS` followed by a
suffix (empty, `Z`, or a numeric UTC offset): the representation generator of
the C4 roundtrip. -/
def isoWallRender (y mo dy hh mi ss : ℕ) (suffix : Str) : Str :=
  pad4n y ++ (45 :: (pad2n mo ++ (45 :: (pad2n dy ++ (84 :: (pad2n hh ++ (58 ::
    (pad2n mi ++ (58 :: (pad2n ss ++ suffix))))))))))

/-- The date-only ISO rendering `YYYY-MM-DD`. -/
def isoDateOnlyRender (y mo dy : ℕ) : Str :=
  pad4n y ++ (45 :: (pad2n mo ++ (45 :: pad2n dy)))

/-- A `±HH:MM` UTC-offset suffix (`sgn` true = negative). -/
def offsetSuffix (sgn : Bool) (oh om : ℕ) : Str :=
  (if sgn then 45 else 43) :: (pad2n oh ++ (58 :: pad2n om))

/-! ## Theorems -/

/-- Inversion for a successful `Except` bind. -/
theorem exceptBindOk {ε α β : Type} {x : Except ε α} {f : α → Except ε β} {b : β}
    (h : x >>= f = .ok b) : ∃ a, x = .ok a ∧ f a = .ok b := by
  cases x with
  | error e => simp [Bind.bind, Except.bind] at h
  | ok a => exact ⟨a, rfl, by simpa [Bind.bind, Except.bind] using h⟩

/-- C2: for every Event or Market record constructed while an as-of reference
is set, the live-mutable fields `active`, `closed`, `volume`, `liquidity` and
`updated_at` of the returned record are null/absent — never the live upstream
value from the raw payload.  (`Market` has no volume/liquidity fields at all,
so for markets those are absent by shape; the remaining three are nulled.) -/
theorem C2_redacted_fields (env : Env) (t : ℚ) (rawE rawM : PyVal) (im : Bool)
    (e : Event) (m : Market)
    (he : event_from_raw env (some t) im rawE = .ok e)
    (hm : market_from_raw env (some t) rawM = .ok m) :
    e.active = PyVal.none ∧ e.closed = PyVal.none ∧ e.volume = Option.none ∧
    e.liquidity = Option.none ∧ e.updated_at = Option.none ∧
    m.active = PyVal.none ∧ m.closed = PyVal.none ∧ m.updated_at = Option.none := by
  unfold event_from_raw at he
  unfold market_from_raw at hm
  obtain ⟨ms, hms, he2⟩ := exceptBindOk he
  obtain ⟨ps, hps, hm2⟩ := exceptBindOk hm
  simp only [pure, Except.pure, Except.ok.injEq] at he2 hm2
  subst he2
  subst hm2
  exact ⟨rfl, rfl, rfl, rfl, rfl, rfl, rfl, rfl⟩

/-- Witness for C2: the theorem applied to a concrete payload on the
failing-network oracle (no network access is needed for the redaction). -/
theorem C2_redacted_fields_witness :
    c2Event.active = PyVal.none ∧ c2Event.closed = PyVal.none ∧
    c2Event.volume = Option.none ∧ c2Event.liquidity = Option.none ∧
    c2Event.updated_at = Option.none ∧ c2Market.active = PyVal.none ∧
    c2Market.closed = PyVal.none ∧ c2Market.updated_at = Option.none :=
  C2_redacted_fields envExn 0 (.dict []) (.dict []) false c2Event c2Market rfl rfl

/-- C9 (counterexample): the claim says every non-2xx response other than 400
and 404 raises a transport error, but `resp.raise_for_status()` raises only
for statuses 400..599 — a 300 response with a decodable JSON body reaching the
client is returned as that body, not raised. -/
theorem C9_http_errors_counterexample :
    getJsonCore (.ok 300 (some (.list []))) = .ok (.list []) ∧
    getJsonCore (.ok 300 (some (.list []))) ≠ .error .transport ∧
    getJsonCore (.ok 300 (some (.list []))) ≠ .error .valueError :=
  ⟨rfl, nofun, nofun⟩

/-- C9 (amended): the HTTP GET wrapper treats every 400 and 404 response as an
empty result rather than raising; every 4xx/5xx response other than 400/404,
every connection failure, and every response whose body fails JSON decoding
raises a transport error that is propagated; a response with a decodable body
and a status outside 400..599 is returned as the parsed body; and the core
client performs no automatic retry — exactly one upstream response is
consumed per call, whatever the outcome. -/
theorem C9_http_errors :
    (∀ body, getJsonCore (.ok 400 body) = .ok (.dict [])) ∧
    (∀ body, getJsonCore (.ok 404 body) = .ok (.dict [])) ∧
    (∀ s body, 400 ≤ s → s ≤ 599 → s ≠ 400 → s ≠ 404 →
      getJsonCore (.ok s body) = .error .transport) ∧
    getJsonCore .exn = .error .transport ∧
    (∀ s, ¬(400 ≤ s ∧ s ≤ 599) → getJsonCore (.ok s Option.none) = .error .transport) ∧
    (∀ s v, ¬(400 ≤ s ∧ s ≤ 599) → getJsonCore (.ok s (some v)) = .ok v) ∧
    (∀ q, (getJsonQueued q).2 = q.tail) := by
  refine ⟨fun body => rfl, fun body => rfl, ?_, rfl, ?_, ?_, ?_⟩
  · intro s body h1 h2 h3 h4
    simp only [getJsonCore]
    rw [if_neg (by omega), if_pos ⟨h1, h2⟩]
  · intro s h
    simp only [getJsonCore]
    rw [if_neg (by omega), if_neg h]
  · intro s v h
    simp only [getJsonCore]
    rw [if_neg (by omega), if_neg h]
  · intro q
    cases q <;> rfl

/-- Witness for C9: the amended theorem applied at concrete statuses, a
connection failure, an undecodable body, and a two-response queue. -/
theorem C9_http_errors_witness :
    getJsonCore (.ok 400 (some (.int 1))) = .ok (.dict []) ∧
    getJsonCore (.ok 404 Option.none) = .ok (.dict []) ∧
    getJsonCore (.ok 500 (some (.int 1))) = .error .transport ∧
    getJsonCore .exn = .error .transport ∧
    getJsonCore (.ok 200 Option.none) = .error .transport ∧
    getJsonCore (.ok 200 (some (.bool true))) = .ok (.bool true) ∧
    (getJsonQueued [.exn, .ok 200 (some (.int 5))]).2 = [.ok 200 (some (.int 5))] :=
  ⟨C9_http_errors.1 _, C9_http_errors.2.1 _,
   C9_http_errors.2.2.1 500 _ (by omega) (by omega) (by omega) (by omega),
   C9_http_errors.2.2.2.1,
   C9_http_errors.2.2.2.2.1 200 (by omega),
   C9_http_errors.2.2.2.2.2.1 200 _ (by omega),
   C9_http_errors.2.2.2.2.2.2 _⟩

/-- C5: list normalization always returns a list of strings and never raises
(the embedding is a total function into `List Str`); a JSON-encoded list
string decodes to its elements — in particular `"[\"Yes\", \"No\"]"`
normalizes to the two strings `Yes`, `No` — and when JSON decoding does not
produce a list the value is handled by stripping brackets/quotes and splitting
on commas. -/
theorem C5_parse_json_list :
    parse_json_list (.str (strLit "[\"Yes\", \"No\"]")) = [strLit "Yes", strLit "No"] ∧
    (∀ s xs, jsonLoads (pyStripWs s) = some (.list xs) →
      parse_json_list (.str s) = xs.map pyStr) ∧
    (∀ s, (pyStripWs s).isEmpty = false →
      (∀ xs, jsonLoads (pyStripWs s) ≠ some (.list xs)) →
      parse_json_list (.str s) =
        ((pySplitOn 44 (pyStripChars [91, 93] (pyStripWs s))).filter
          (fun part => !(pyStripWs part).isEmpty)).map
          (fun part => pyStripChars [39, 34] (pyStripWs part))) := by
  refine ⟨by decide, ?_, ?_⟩
  · intro s xs h
    have hne : (pyStripWs s).isEmpty = false := by
      cases hst : (pyStripWs s).isEmpty
      · rfl
      · exfalso
        rw [List.isEmpty_iff.mp hst] at h
        exact Option.noConfusion (show (Option.none : Option PyVal) = some (.list xs) from h)
    simp only [parse_json_list, hne, Bool.false_eq_true, if_false, h]
  · intro s h1 h2
    simp only [parse_json_list, h1, Bool.false_eq_true, if_false]

/-- Witness for C5: the generic conjuncts applied to a decodable JSON list of
numbers and to an undecodable bracketed string handled by the fallback path. -/
theorem C5_parse_json_list_witness :
    parse_json_list (.str (strLit "[1, 2]")) = [strLit "1", strLit "2"] ∧
    parse_json_list (.str (strLit "[Yes, No]")) = [strLit "Yes", strLit "No"] := by
  constructor
  · exact (C5_parse_json_list.2.1 (strLit "[1, 2]") [.int 1, .int 2] rfl).trans (by decide)
  · refine (C5_parse_json_list.2.2 (strLit "[Yes, No]") (by decide) ?_).trans (by decide)
    intro xs h
    rw [show jsonLoads (pyStripWs (strLit "[Yes, No]")) = Option.none from rfl] at h
    exact Option.noConfusion h

/-- Every request issued by the cursor loop carries the loop's fixed
parameters plus a cursor. -/
theorem clobLoopParams (env : Env) (asOf : Option ℚ) (params : List (Str × PyVal))
    (ofp : Bool) (mp : Option ℕ) :
    ∀ fuel cursor pages acc req,
      req ∈ (clobLoop env asOf params ofp mp fuel cursor pages acc).2 →
      ∃ c, req = ⟨.clob, strLit "/data/trades",
        filterParams (params ++ [(strLit "next_cursor", c)]), true⟩ := by
  intro fuel
  induction fuel with
  | zero => intro cursor pages acc req h; simp [clobLoop] at h
  | succ n ih =>
    intro cursor pages acc req h
    simp only [clobLoop] at h
    by_cases hc : cursorTerminal cursor = true
    · rw [if_pos hc] at h; simp at h
    · rw [if_neg hc] at h
      cases hg : getJsonCore (env ⟨.clob, strLit "/data/trades",
          filterParams (params ++ [(strLit "next_cursor", cursor)]), true⟩) with
      | error e =>
        rw [hg] at h
        simp at h
        exact ⟨cursor, h⟩
      | ok data =>
        rw [hg] at h
        cases data with
        | dict d =>
          simp only [] at h
          split at h
          · simp at h; exact ⟨cursor, h⟩
          · split at h
            · split at h
              · simp at h; exact ⟨cursor, h⟩
              · simp at h
                rcases h with h | h
                · exact ⟨cursor, h⟩
                · exact ih _ _ _ req h
            · simp at h
              rcases h with h | h
              · exact ⟨cursor, h⟩
              · exact ih _ _ _ req h
        | list xs =>
          simp only [] at h
          split at h
          · simp at h; exact ⟨cursor, h⟩
          · split at h
            · split at h
              · simp at h; exact ⟨cursor, h⟩
              · simp at h
                rcases h with h | h
                · exact ⟨cursor, h⟩
                · exact ih _ _ _ req h
            · simp at h
              rcases h with h | h
              · exact ⟨cursor, h⟩
              · exact ih _ _ _ req h
        | none => simp at h; exact ⟨cursor, h⟩
        | bool b => simp at h; exact ⟨cursor, h⟩
        | int m => simp at h; exact ⟨cursor, h⟩
        | float q => simp at h; exact ⟨cursor, h⟩
        | str s => simp at h; exact ⟨cursor, h⟩
        | datetime y mo dd hh mi sec tz => simp at h; exact ⟨cursor, h⟩
        | date y mo dd => simp at h; exact ⟨cursor, h⟩

/-- Finding the `before` parameter after `None`-filtering, when the keys ahead
of it are all different from `before`. -/
theorem lookupFilteredBefore (ps : List (Str × PyVal)) (v : ℤ) (rest : List (Str × PyVal))
    (hks : ∀ kv ∈ ps, ¬ kv.1 = strLit "before") :
    lookupParam (filterParams (ps ++ (strLit "before", PyVal.int v) :: rest))
      (strLit "before") = some (.int v) := by
  induction ps with
  | nil => simp [filterParams, lookupParam]
  | cons kv ps ih =>
    have hk : ¬ kv.1 = strLit "before" := hks kv (List.mem_cons_self kv ps)
    have hrest := fun kv2 h2 => hks kv2 (List.mem_cons_of_mem kv h2)
    rcases kv with ⟨k, v2⟩
    cases v2 with
    | none => simpa [filterParams, lookupParam] using ih hrest
    | bool b => simpa [filterParams, lookupParam, hk] using ih hrest
    | int n => simpa [filterParams, lookupParam, hk] using ih hrest
    | float q => simpa [filterParams, lookupParam, hk] using ih hrest
    | str s => simpa [filterParams, lookupParam, hk] using ih hrest
    | list xs => simpa [filterParams, lookupParam, hk] using ih hrest
    | dict d => simpa [filterParams, lookupParam, hk] using ih hrest
    | datetime y mo d h mi sec tz => simpa [filterParams, lookupParam, hk] using ih hrest
    | date y mo d => simpa [filterParams, lookupParam, hk] using ih hrest

/-- C10: when an as-of reference is set, `get_clob_trades` clamps its time
window before any network activity: a caller `after` bound strictly later
than the (truncated) as-of timestamp returns the empty list with no request
issued — for every oracle and every fuel; otherwise every request sent
upstream carries a `before` bound lowered to the as-of timestamp whenever the
caller's bound was missing or exceeded it. -/
theorem C10_clob_window_clamp (env : Env) (t : ℚ) (fuel : ℕ)
    (tid ma mk aid : Option Str) (before after : PyVal) (nc : Option Str)
    (ofp : Bool) (mp : Option ℕ) (hp : Bool) :
    (∀ a, parse_int after = some a → pyTrunc t < a →
      get_clob_trades env (some t) fuel tid ma mk aid before after nc ofp mp hp
        = (some (.ok []), [])) ∧
    ((∀ a, parse_int after = some a → a ≤ pyTrunc t) →
      ∀ req ∈ (get_clob_trades env (some t) fuel tid ma mk aid before after nc ofp mp hp).2,
        lookupParam req.params (strLit "before") =
          some (.int (match parse_int before with
                      | some b => if pyTrunc t < b then pyTrunc t else b
                      | Option.none => pyTrunc t))) := by
  constructor
  · intro a ha hlt
    simp only [get_clob_trades, ha]
    rw [if_pos (by simpa using hlt)]
  · intro hle req hreq
    simp only [get_clob_trades] at hreq
    have hEE : (match (some t : Option ℚ), parse_int after with
        | some t, some a => decide (pyTrunc t < a)
        | _, _ => false) = false := by
      cases hpa : parse_int after with
      | none => rfl
      | some a => simpa using not_lt.mpr (hle a hpa)
    rw [hEE, if_neg (by simp)] at hreq
    cases hhp : hp with
    | false => rw [hhp] at hreq; simp at hreq
    | true =>
      rw [hhp] at hreq
      simp only [Bool.not_true, Bool.false_eq_true, if_false] at hreq
      obtain ⟨c, rfl⟩ := clobLoopParams env (some t) _ ofp mp fuel _ 0 [] req hreq
      have hks : ∀ kv ∈ [(strLit "id", optStr tid), (strLit "maker_address", optStr ma),
          (strLit "market", optStr mk), (strLit "asset_id", optStr aid)],
          ¬ kv.1 = strLit "before" := by
        intro kv hkv
        simp only [List.mem_cons, List.not_mem_nil, or_false] at hkv
        have h1 : kv.1 = strLit "id" ∨ kv.1 = strLit "maker_address" ∨
            kv.1 = strLit "market" ∨ kv.1 = strLit "asset_id" := by
          rcases hkv with rfl | rfl | rfl | rfl
          · exact Or.inl rfl
          · exact Or.inr (Or.inl rfl)
          · exact Or.inr (Or.inr (Or.inl rfl))
          · exact Or.inr (Or.inr (Or.inr rfl))
        rcases h1 with h1 | h1 | h1 | h1 <;> rw [h1] <;> decide
      cases hpb : parse_int before with
      | none =>
        simpa [hpb] using lookupFilteredBefore
          [(strLit "id", optStr tid), (strLit "maker_address", optStr ma),
           (strLit "market", optStr mk), (strLit "asset_id", optStr aid)]
          (pyTrunc t)
          [(strLit "after", optInt (parse_int after)), (strLit "next_cursor", c)] hks
      | some b =>
        simpa [hpb, ← apply_ite (some : ℤ → Option ℤ), optInt] using lookupFilteredBefore
          [(strLit "id", optStr tid), (strLit "maker_address", optStr ma),
           (strLit "market", optStr mk), (strLit "asset_id", optStr aid)]
          (if pyTrunc t < b then pyTrunc t else b)
          [(strLit "after", optInt (parse_int after)), (strLit "next_cursor", c)] hks

/-- Witness for C10: with as-of 100, an `after` of 200 short-circuits to the
empty result with no request for every oracle response; with `before` 500 the
single issued request carries `before` 100. -/
theorem C10_clob_window_clamp_witness :
    get_clob_trades envExn (some 100) 5 Option.none Option.none Option.none Option.none
      (.int 150) (.int 200) Option.none false Option.none true = (some (.ok []), []) ∧
    lookupParam c10Req.params (strLit "before") = some (.int 100) := by
  constructor
  · exact (C10_clob_window_clamp envExn 100 5 Option.none Option.none Option.none Option.none
      (.int 150) (.int 200) Option.none false Option.none true).1 200 rfl (by decide)
  · exact (C10_clob_window_clamp envExn 100 1 Option.none Option.none Option.none Option.none
      (.int 500) .none Option.none false Option.none true).2 (by nofun) c10Req
      (by show c10Req ∈ [c10Req]; exact List.mem_singleton.mpr rfl)

/-- Membership inversion for a successful effectful map. -/
theorem mapMOkMem {α β : Type} (f : α → Except PyErr β) :
    ∀ (l : List α) (bs : List β), l.mapM f = .ok bs → ∀ b ∈ bs, ∃ a ∈ l, f a = .ok b := by
  intro l
  induction l with
  | nil =>
    intro bs h b hb
    simp only [List.mapM_nil, pure, Except.pure, Except.ok.injEq] at h
    subst h
    simp at hb
  | cons a l ih =>
    intro bs h b hb
    rw [List.mapM_cons] at h
    obtain ⟨x, hfa, h2⟩ := exceptBindOk h
    obtain ⟨xs, hmap, h3⟩ := exceptBindOk h2
    simp only [pure, Except.pure, Except.ok.injEq] at h3
    subst h3
    rcases List.mem_cons.mp hb with rfl | hb2
    · exact ⟨a, List.mem_cons_self a l, hfa⟩
    · obtain ⟨a2, ha2, hfa2⟩ := ih xs hmap b hb2
      exact ⟨a2, List.mem_cons_of_mem a ha2, hfa2⟩

/-- The key-scanning loop of `_is_visible` succeeds exactly when the first
resolvable creation timestamp is at or before the reference. -/
theorem isVisibleLoopIff (t : ℚ) (item : PyVal) :
    ∀ keys, isVisibleLoop t item keys = true ↔
      ∃ v, visTimestamp item keys = some v ∧ v ≤ t := by
  intro keys
  induction keys with
  | nil => simp [isVisibleLoop, visTimestamp]
  | cons k ks ih =>
    simp only [isVisibleLoop, visTimestamp]
    cases parse_datetime (dictGet item k) with
    | none => simpa using ih
    | some v => simp

/-- C1: when an as-of reference is set, a raw record is visible iff its first
resolvable creation-type timestamp, tried across the prioritized candidate
keys, is at or before the reference; a record with no resolvable creation
timestamp is not visible and is dropped from listing results (`list_events`,
`list_markets`), while a direct by-id or by-slug fetch of an invisible record
returns null rather than raising; consequently every record a listing call
returns comes from a raw payload whose visibility timestamp is at or before
the reference — never strictly after it. -/
theorem C1_as_of_visibility :
    (∀ t item keys, is_visible (some t) item keys = true ↔
      ∃ v, visTimestamp item keys = some v ∧ v ≤ t) ∧
    (∀ t item keys, visTimestamp item keys = Option.none →
      is_visible (some t) item keys = false) ∧
    (∀ env t params im es, list_events env (some t) params im = .ok es →
      ∀ e ∈ es, ∃ raw, event_from_raw env (some t) im raw = .ok e ∧
        ∃ v, visTimestamp raw eventDateKeys = some v ∧ v ≤ t) ∧
    (∀ env t params ms, list_markets env (some t) params = .ok ms →
      ∀ m ∈ ms, ∃ raw, market_from_raw env (some t) raw = .ok m ∧
        ∃ v, visTimestamp raw marketDateKeys = some v ∧ v ≤ t) ∧
    (∀ env t tid im dd,
      getJson env .gamma (strLit "/events/" ++ tid) [] false = .ok (.dict dd) →
      is_visible (some t) (.dict dd) eventDateKeys = false →
      get_event_by_id env (some t) tid im = .ok Option.none) ∧
    (∀ env t slug im dd,
      getJson env .gamma (strLit "/events/slug/" ++ slug) [] false = .ok (.dict dd) →
      is_visible (some t) (.dict dd) eventDateKeys = false →
      get_event_by_slug env (some t) slug im = .ok Option.none) ∧
    (∀ env t mid dd,
      getJson env .gamma (strLit "/markets/" ++ mid) [] false = .ok (.dict dd) →
      is_visible (some t) (.dict dd) marketDateKeys = false →
      get_market_by_market_id env (some t) mid = .ok Option.none) ∧
    (∀ env t slug dd,
      getJson env .gamma (strLit "/markets/slug/" ++ slug) [] false = .ok (.dict dd) →
      is_visible (some t) (.dict dd) marketDateKeys = false →
      get_market_by_slug env (some t) slug = .ok Option.none) := by
  have hvisIff : ∀ t item keys, is_visible (some t) item keys = true ↔
      ∃ v, visTimestamp item keys = some v ∧ v ≤ t := by
    intro t item keys
    simpa [is_visible] using isVisibleLoopIff t item keys
  refine ⟨hvisIff, ?_, ?_, ?_, ?_, ?_, ?_, ?_⟩
  · intro t item keys h
    cases hv : is_visible (some t) item keys
    · rfl
    · obtain ⟨v, hv2, _⟩ := (hvisIff t item keys).mp hv
      rw [h] at hv2
      exact Option.noConfusion hv2
  · intro env t params im es hles e he
    unfold list_events at hles
    obtain ⟨data, _, h2⟩ := exceptBindOk hles
    cases data with
    | list items =>
      obtain ⟨raw, hmem, hok⟩ := mapMOkMem _ _ es h2 e he
      have hmem2 : raw ∈ items ∧ is_visible (some t) raw eventDateKeys = true := by
        simpa [filter_by_date] using hmem
      exact ⟨raw, hok, (hvisIff t raw eventDateKeys).mp hmem2.2⟩
    | none => simp [pure, Except.pure] at h2; subst h2; simp at he
    | bool b => simp [pure, Except.pure] at h2; subst h2; simp at he
    | int n => simp [pure, Except.pure] at h2; subst h2; simp at he
    | float q => simp [pure, Except.pure] at h2; subst h2; simp at he
    | str s => simp [pure, Except.pure] at h2; subst h2; simp at he
    | dict d => simp [pure, Except.pure] at h2; subst h2; simp at he
    | datetime y mo d h mi sec tz => simp [pure, Except.pure] at h2; subst h2; simp at he
    | date y mo d => simp [pure, Except.pure] at h2; subst h2; simp at he
  · intro env t params ms hlms m hm
    unfold list_markets at hlms
    obtain ⟨data, _, h2⟩ := exceptBindOk hlms
    cases data with
    | list items =>
      obtain ⟨raw, hmem, hok⟩ := mapMOkMem _ _ ms h2 m hm
      have hmem2 : raw ∈ items ∧ is_visible (some t) raw marketDateKeys = true := by
        simpa [filter_by_date] using hmem
      exact ⟨raw, hok, (hvisIff t raw marketDateKeys).mp hmem2.2⟩
    | none => simp [pure, Except.pure] at h2; subst h2; simp at hm
    | bool b => simp [pure, Except.pure] at h2; subst h2; simp at hm
    | int n => simp [pure, Except.pure] at h2; subst h2; simp at hm
    | float q => simp [pure, Except.pure] at h2; subst h2; simp at hm
    | str s => simp [pure, Except.pure] at h2; subst h2; simp at hm
    | dict d => simp [pure, Except.pure] at h2; subst h2; simp at hm
    | datetime y mo d h mi sec tz => simp [pure, Except.pure] at h2; subst h2; simp at hm
    | date y mo d => simp [pure, Except.pure] at h2; subst h2; simp at hm
  · intro env t tid im dd hresp hvis
    unfold get_event_by_id
    rw [hresp]
    simp [Bind.bind, Except.bind, hvis, pure, Except.pure]
  · intro env t slug im dd hresp hvis
    unfold get_event_by_slug
    rw [hresp]
    simp [Bind.bind, Except.bind, hvis, pure, Except.pure]
  · intro env t mid dd hresp hvis
    unfold get_market_by_market_id
    rw [hresp]
    simp [Bind.bind, Except.bind, hvis, pure, Except.pure]
  · intro env t slug dd hresp hvis
    unfold get_market_by_slug
    rw [hresp]
    simp [Bind.bind, Except.bind, hvis, pure, Except.pure]

/-- Witness for C1: on the concrete oracle, the listing keeps exactly the
visible record (the future one and the timestamp-less one are dropped), and
the by-id/by-slug fetches of invisible records return null. -/
theorem C1_as_of_visibility_witness :
    is_visible (some (qOfInt 10)) (.dict [(strLit "createdAt", .int 5)]) eventDateKeys = true ∧
    is_visible (some c1Ref) (.dict []) eventDateKeys = false ∧
    list_events envC1 (some c1Ref) [] false = .ok [c1Event] ∧
    (∃ raw, event_from_raw envC1 (some c1Ref) false raw = .ok c1Event ∧
      ∃ v, visTimestamp raw eventDateKeys = some v ∧ v ≤ c1Ref) ∧
    list_markets envC1 (some c1Ref) [] = .ok [c1Market] ∧
    (∃ raw, market_from_raw envC1 (some c1Ref) raw = .ok c1Market ∧
      ∃ v, visTimestamp raw marketDateKeys = some v ∧ v ≤ c1Ref) ∧
    get_event_by_id envC1 (some c1Ref) (strLit "42") false = .ok Option.none ∧
    get_event_by_slug envC1 (some c1Ref) (strLit "future-event") false = .ok Option.none ∧
    get_market_by_market_id envC1 (some c1Ref) (strLit "9") = .ok Option.none ∧
    get_market_by_slug envC1 (some c1Ref) (strLit "future-market") = .ok Option.none :=
  ⟨(C1_as_of_visibility.1 _ _ _).mpr ⟨qOfInt 5, rfl, by decide⟩,
   C1_as_of_visibility.2.1 c1Ref (.dict []) eventDateKeys rfl,
   rfl,
   C1_as_of_visibility.2.2.1 envC1 c1Ref [] false [c1Event] rfl c1Event
     (List.mem_singleton.mpr rfl),
   rfl,
   C1_as_of_visibility.2.2.2.1 envC1 c1Ref [] [c1Market] rfl c1Market
     (List.mem_singleton.mpr rfl),
   C1_as_of_visibility.2.2.2.2.1 envC1 c1Ref (strLit "42") false c1FutD rfl (by decide),
   C1_as_of_visibility.2.2.2.2.2.1 envC1 c1Ref (strLit "future-event") false c1FutD rfl
     (by decide),
   C1_as_of_visibility.2.2.2.2.2.2.1 envC1 c1Ref (strLit "9") c1MFutD rfl (by decide),
   C1_as_of_visibility.2.2.2.2.2.2.2 envC1 c1Ref (strLit "future-market") c1MFutD rfl
     (by decide)⟩

/-- Python `int()` truncation agrees with the floor on nonnegative rationals. -/
theorem pyTruncFloor (t : ℚ) (ht : 0 ≤ t) : pyTrunc t = ⌊t⌋ := by
  rw [pyTrunc, Rat.floor_def, Int.tdiv_eq_ediv (Rat.num_nonneg.mpr ht) (by positivity)]

/-- `qOfInt` is monotone-reflecting. -/
theorem qOfIntLe (a b : ℤ) : qOfInt a ≤ qOfInt b ↔ a ≤ b := by
  rw [qOfInt_eq, qOfInt_eq]
  exact Int.cast_le

/-- For a nonnegative reference, an integer sample timestamp is at or before
the truncated reference exactly when it is at or before the reference. -/
theorem sampleLeTrunc (t : ℚ) (ht : 0 ≤ t) (n : ℤ) :
    n ≤ pyTrunc t ↔ qOfInt n ≤ t := by
  rw [pyTruncFloor t ht, Int.le_floor, qOfInt_eq]

/-- The point filter of `get_price_history` on well-formed integer samples is
the at-or-before filter of the claim. -/
theorem historyPointsMap (t : ℚ) (ht : 0 ≤ t) (samples : List (ℤ × ℚ)) :
    historyPoints (some t) (samples.map samplePoint) =
      (samples.filter fun s => decide (qOfInt s.1 ≤ t)).map
        fun s => PricePoint.mk (qOfInt s.1) s.2 := by
  induction samples with
  | nil => rfl
  | cons s rest ih =>
    have e1 : dictGet (samplePoint s) (strLit "t") = .int s.1 := rfl
    have e2 : dictGet (samplePoint s) (strLit "p") = .float s.2 := rfl
    simp only [List.map_cons, historyPoints, e1, e2, numVal, parse_float, List.filter_cons]
    by_cases hle : qOfInt s.1 ≤ t
    · have h1 : ¬ qOfInt (pyTrunc t) < qOfInt s.1 := by
        rw [not_lt, qOfIntLe, sampleLeTrunc t ht]
        exact hle
      rw [if_neg h1]
      simp [hle, ih]
    · have h1 : qOfInt (pyTrunc t) < qOfInt s.1 := by
        rw [← not_le, qOfIntLe, sampleLeTrunc t ht]
        exact hle
      rw [if_pos h1]
      simp [hle, ih]

/-- Inserting a point that is at least every accumulated timestamp appends it. -/
theorem insertByTsAppend (p : PricePoint) :
    ∀ acc, (∀ q ∈ acc, q.timestamp ≤ p.timestamp) → insertByTs p acc = acc ++ [p] := by
  intro acc
  induction acc with
  | nil => intro _; rfl
  | cons q rest ih =>
    intro h
    simp only [insertByTs, h q (List.mem_cons_self q rest), if_true, List.cons_append]
    rw [ih fun r hr => h r (List.mem_cons_of_mem q hr)]

/-- Folding stable insertion over an already-sorted list is the identity
(relative to the sorted prefix). -/
theorem foldlInsertSorted :
    ∀ (l acc : List PricePoint),
      l.Pairwise (fun a b => a.timestamp ≤ b.timestamp) →
      (∀ a ∈ acc, ∀ b ∈ l, a.timestamp ≤ b.timestamp) →
      l.foldl (fun acc p => insertByTs p acc) acc = acc ++ l := by
  intro l
  induction l with
  | nil => intro acc _ _; simp
  | cons p rest ih =>
    intro acc hsort hcross
    simp only [List.foldl_cons]
    rw [insertByTsAppend p acc fun q hq => hcross q hq p (List.mem_cons_self p rest)]
    rw [ih (acc ++ [p]) (List.Pairwise.of_cons hsort) ?cross]
    · simp
    case cross =>
      intro a ha b hb
      rcases List.mem_append.mp ha with ha2 | ha2
      · exact hcross a ha2 b (List.mem_cons_of_mem p hb)
      · rw [List.mem_singleton.mp ha2]
        exact (List.pairwise_cons.mp hsort).1 b hb

/-- `sorted` on an already timestamp-sorted list is the identity (Python's
`sorted` is stable, and the embedding's insertion sort matches it). -/
theorem sortByTsId (l : List PricePoint)
    (h : l.Pairwise (fun a b => a.timestamp ≤ b.timestamp)) : sortByTs l = l := by
  simpa [sortByTs] using foldlInsertSorted l [] h (by simp)

/-- A pointwise-successful effectful map is the pure map. -/
theorem mapMCongrOk {α β : Type} (f : α → Except PyErr β) (g : α → β) :
    ∀ (l : List α), (∀ a ∈ l, f a = .ok (g a)) → l.mapM f = .ok (l.map g) := by
  intro l
  induction l with
  | nil => intro _; rfl
  | cons a rest ih =>
    intro h
    rw [List.mapM_cons, h a (List.mem_cons_self a rest)]
    rw [show ∀ x (k : β → Except PyErr (List β)), (Except.ok x : Except PyErr β) >>= k = k x
      from fun x k => rfl]
    rw [ih fun b hb => h b (List.mem_cons_of_mem a hb)]
    rfl

/-- With as-of set and no explicit window, `get_price_history` returns
exactly the at-or-before-filtered, already-sorted samples of the response. -/
theorem getPriceHistoryDefault (env : Env) (t : ℚ) (ht : 0 ≤ t) (tok : Str)
    (samples : List (ℤ × ℚ)) (hsort : samples.Pairwise (fun a b => a.1 ≤ b.1))
    (hresp : env (priceHistoryReq tok (pyTrunc t)) =
      .ok 200 (some (.dict [(strLit "history", .list (samples.map samplePoint))]))) :
    get_price_history env (some t) tok Option.none Option.none Option.none Option.none =
      .ok ((samples.filter fun s => decide (qOfInt s.1 ≤ t)).map
        fun s => PricePoint.mk (qOfInt s.1) s.2) := by
  unfold get_price_history
  simp only [getJson]
  rw [show env ⟨.clob, strLit "/prices-history",
      filterParams [(strLit "market", .str tok), (strLit "startTs", optInt Option.none),
        (strLit "endTs", optInt (some (pyTrunc t))), (strLit "interval", optStr Option.none),
        (strLit "fidelity", optInt Option.none)], false⟩ =
      .ok 200 (some (.dict [(strLit "history", .list (samples.map samplePoint))]))
    from hresp]
  rw [show getJsonCore (HttpResp.ok 200 (some (PyVal.dict
      [(strLit "history", PyVal.list (List.map samplePoint samples))]))) =
      Except.ok (PyVal.dict [(strLit "history", PyVal.list (List.map samplePoint samples))])
    from rfl]
  simp only [Bind.bind, Except.bind]
  rw [show dictGet (PyVal.dict [(strLit "history", PyVal.list (List.map samplePoint samples))])
      (strLit "history") = PyVal.list (List.map samplePoint samples) from rfl]
  rcases samples with _ | ⟨s, rest⟩
  · rfl
  · rw [show (!pyTruthy (PyVal.list (List.map samplePoint (s :: rest)))) = false from rfl]
    simp only [Bool.false_eq_true, if_false]
    rw [historyPointsMap t ht (s :: rest)]
    have hs : (((s :: rest).filter fun s => decide (qOfInt s.1 ≤ t)).map
        fun s => PricePoint.mk (qOfInt s.1) s.2).Pairwise
          (fun a b => a.timestamp ≤ b.timestamp) := by
      refine List.pairwise_map.mpr ?_
      exact (hsort.filter _).imp fun h => (qOfIntLe _ _).mpr h
    rw [sortByTsId _ hs]
    rfl

/-- Passing the as-of timestamp explicitly as `endTs` yields the same call as
the default (the clamp maps both to the same window). -/
theorem getPriceHistoryEndTsSame (env : Env) (t : ℚ) (tok : Str) :
    get_price_history env (some t) tok Option.none (some (pyTrunc t)) Option.none Option.none =
      get_price_history env (some t) tok Option.none Option.none Option.none Option.none := by
  unfold get_price_history
  simp only [ite_self]

/-- The last price of the filtered, normalized points is the claim's
last-at-or-before price. -/
theorem lastPriceOf (t : ℚ) (samples : List (ℤ × ℚ)) :
    (((samples.filter fun s => decide (qOfInt s.1 ≤ t)).map
      fun s => PricePoint.mk (qOfInt s.1) s.2).getLast?).map (·.price) =
    lastAtOrBefore t samples := by
  rw [List.getLast?_map, lastAtOrBefore, Option.map_map]
  rfl

/-- C3: while an as-of reference is set, every outcome price or token price
the client returns — via `_prices_as_of` / `_market_from_raw`,
`get_market_tokens`, `get_token_midpoint`, `get_token_price` — equals the
price of the last price-history sample whose timestamp is at or before the
reference time for that token (stated for time-sorted integer-second sample
lists, the shape the API returns), and is null when no such sample exists;
the live current price and the raw `outcomePrices` value are never used while
as-of is set: the market constructor's prices are exactly the padded history
prices whatever the raw `outcomePrices` says, and `get_market_tokens` returns
the history price regardless of the fallback flag. -/
theorem C3_price_reconstruction (env : Env) (t : ℚ) (ht : 0 ≤ t) (sampleF : Str → List (ℤ × ℚ))
    (hsort : ∀ tok, (sampleF tok).Pairwise (fun a b => a.1 ≤ b.1))
    (hresp : ∀ tok, env (priceHistoryReq tok (pyTrunc t)) =
      .ok 200 (some (.dict [(strLit "history", .list ((sampleF tok).map samplePoint))]))) :
    (∀ tok, get_token_midpoint env (some t) tok = .ok (lastAtOrBefore t (sampleF tok))) ∧
    (∀ tok side, get_token_price env (some t) tok side = .ok (lastAtOrBefore t (sampleF tok))) ∧
    (∀ tokenIds, prices_as_of env (some t) tokenIds =
      .ok (tokenIds.map fun tok => lastAtOrBefore t (sampleF tok))) ∧
    (∀ raw mk, market_from_raw env (some t) raw = .ok mk →
      mk.outcome_prices = padPrices (parse_json_list (dictGet raw (strLit "outcomes")))
        ((parse_json_list (dictGet raw (strLit "clobTokenIds"))).map
          fun tok => lastAtOrBefore t (sampleF tok))) ∧
    (∀ mObj fb, get_market_tokens env (some t) mObj Option.none Option.none Option.none
        Option.none Option.none fb =
      .ok (mObj.clob_token_ids.enum.map fun it =>
        Token.mk it.2 mObj.outcomes[it.1]? (lastAtOrBefore t (sampleF it.2)))) := by
  have hlast : ∀ tok,
      get_price_history env (some t) tok Option.none Option.none Option.none Option.none =
        .ok (((sampleF tok).filter fun s => decide (qOfInt s.1 ≤ t)).map
          fun s => PricePoint.mk (qOfInt s.1) s.2) :=
    fun tok => getPriceHistoryDefault env t ht tok (sampleF tok) (hsort tok) (hresp tok)
  have hprices : ∀ tokenIds : List Str, prices_as_of env (some t) tokenIds =
      .ok (tokenIds.map fun tok => lastAtOrBefore t (sampleF tok)) := by
    intro tokenIds
    simp only [prices_as_of]
    refine mapMCongrOk _ _ tokenIds ?_
    intro tok _
    rw [hlast tok]
    simp only [Except.map]
    rw [lastPriceOf]
  refine ⟨?_, ?_, hprices, ?_, ?_⟩
  · intro tok
    simp only [get_token_midpoint]
    rw [hlast tok]
    simp only [Except.map]
    rw [lastPriceOf]
  · intro tok side
    simp only [get_token_price]
    rw [hlast tok]
    simp only [Except.map]
    rw [lastPriceOf]
  · intro raw mk hm
    simp only [market_from_raw] at hm
    obtain ⟨ps, hps, h2⟩ := exceptBindOk hm
    simp only [pure, Except.pure, Except.ok.injEq] at h2
    subst h2
    show ps = _
    simp only [marketPricesOf] at hps
    rw [hprices] at hps
    simp only [Except.map, Except.ok.injEq] at hps
    exact hps.symm
  · intro mObj fb
    simp only [get_market_tokens, Option.isSome_some, Bool.true_or, Option.isNone_none,
      Bool.and_true, Bool.true_and, Bool.and_false, if_true]
    refine mapMCongrOk _ _ _ ?_
    intro it hit
    rw [getPriceHistoryEndTsSame, hlast it.2]
    simp only [Except.map, Bind.bind, Except.bind, Option.isNone_some, Bool.and_false,
      Bool.false_eq_true, if_false, lastPriceOf]
    cases lastAtOrBefore t (sampleF it.2) <;> rfl

/-- Witness for C3: on the concrete three-sample oracle at as-of 150, every
price path returns the 100-second sample's price 3/4 — never the live value
and never the raw `outcomePrices` (0.1/0.2) or the object's stored price 9. -/
theorem C3_price_reconstruction_witness :
    get_token_midpoint envC3 (some 150) (strLit "tokA") = .ok (some (Rat.divInt 3 4)) ∧
    get_token_price envC3 (some 150) (strLit "tokA") (strLit "BUY") =
      .ok (some (Rat.divInt 3 4)) ∧
    prices_as_of envC3 (some 150) [strLit "tokA", strLit "tokB"] =
      .ok [some (Rat.divInt 3 4), some (Rat.divInt 3 4)] ∧
    c3Market.outcome_prices = [some (Rat.divInt 3 4), some (Rat.divInt 3 4)] ∧
    get_market_tokens envC3 (some 150) c3MObj Option.none Option.none Option.none
        Option.none Option.none true =
      .ok [⟨strLit "tokA", some (strLit "Yes"), some (Rat.divInt 3 4)⟩] := by
  have hs : c3Samples.Pairwise (fun a b => a.1 ≤ b.1) := by decide
  have h := C3_price_reconstruction envC3 150 (by decide) (fun _ => c3Samples)
    (fun _ => hs) (fun tok => rfl)
  exact ⟨h.1 (strLit "tokA"), h.2.1 (strLit "tokA") (strLit "BUY"),
    h.2.2.1 [strLit "tokA", strLit "tokB"], h.2.2.2.1 c3Raw c3Market rfl,
    h.2.2.2.2 c3MObj true⟩


/-- One step of the unbounded no-filter cursor loop against `clobEnvBad`:
the constant `"MA=="` cursor comes back and the loop recurses. -/
theorem clobLoopBadStep (n pages : ℕ) (acc : List Trade) :
    (clobLoop clobEnvBad Option.none clobBadParams false Option.none (n+1)
      (.str (strLit "MA==")) pages acc).1
    = (clobLoop clobEnvBad Option.none clobBadParams false Option.none n
      (.str (strLit "MA==")) (pages+1) (acc ++ [])).1 := rfl

/-- The unbounded no-filter cursor loop against `clobEnvBad` exhausts any
fuel, from any page count and accumulator. -/
theorem clobLoopBadDivergesAux : ∀ (fuel pages : ℕ) (acc : List Trade),
    (clobLoop clobEnvBad Option.none clobBadParams false Option.none fuel
      (.str (strLit "MA==")) pages acc).1 = Option.none := by
  intro fuel
  induction fuel with
  | zero => intro pages acc; rfl
  | succ n ih =>
    intro pages acc
    rw [clobLoopBadStep]
    exact ih (pages+1) (acc ++ [])

/-- C6 counterexample: the cursor loop of `get_clob_trades` does NOT
terminate for every sequence of server responses when `max_pages` is not
supplied — against a server that always answers with the non-terminal cursor
`"MA=="` (HTTP 200, well-formed body) the `while` loop never exits: no fuel
bound suffices. -/
theorem C6_pagination_counterexample : clobDiverges := by
  intro fuel
  show (clobLoop clobEnvBad Option.none clobBadParams false Option.none fuel
    (.str (strLit "MA==")) 0 []).1 = Option.none
  exact clobLoopBadDivergesAux fuel 0 []

/-- The per-side offset loop of `fetch_trades_for_market` needs no further
fuel once the offset is positive: every branch returns (the next offset step
would exceed `MAX_OFFSET = 10000`). -/
theorem fetchSideLoopPos (env : Env) (cid side : Str) (fuel : ℕ) (offset : ℤ)
    (ho : 0 < offset) (st : List Str × List (Str × TradeEntry)) :
    (fetchSideLoop env cid side (fuel+1) offset st).isSome := by
  simp only [fetchSideLoop]
  by_cases h1 : offset > 10000
  · simp [h1]
  · rw [if_neg h1]
    cases hg : get_trades env Option.none (some 10000) (some offset) (some false)
      (some (strLit "CASH")) (some 500) (some [.str cid]) Option.none Option.none
      (some side) with
    | error e => simp
    | ok page =>
      by_cases he : page.isEmpty
      · simp [he]
      · by_cases hl : page.length < 10000
        · simp [he, hl]
        · have h2 : offset + 10000 > 10000 := by omega
          simp [he, hl, h2]

/-- From offset 0 the per-side offset loop returns within two iterations,
for every server. -/
theorem fetchSideLoopStart (env : Env) (cid side : Str) (fuel : ℕ)
    (st : List Str × List (Str × TradeEntry)) :
    (fetchSideLoop env cid side (fuel+2) 0 st).isSome := by
  show (fetchSideLoop env cid side ((fuel+1)+1) 0 st).isSome
  simp only [fetchSideLoop]
  rw [if_neg (by omega : ¬ ((0:ℤ) > 10000))]
  cases hg : get_trades env Option.none (some 10000) (some 0) (some false)
    (some (strLit "CASH")) (some 500) (some [.str cid]) Option.none Option.none
    (some side) with
  | error e => simp
  | ok page =>
    by_cases he : page.isEmpty
    · simp [he]
    · by_cases hl : page.length < 10000
      · simp [he, hl]
      · have h2 : ¬ ((0:ℤ) + 10000 > 10000) := by omega
        simp only [he, hl, h2, if_neg, if_false, Bool.false_eq_true]
        exact fetchSideLoopPos env cid side fuel (0 + 10000) (by omega) _

/-- The dual-pass trade driver is total at fuel 3 (two iterations per side),
for every server. -/
theorem fetchTotal (env : Env) (cid : Str) :
    (fetch_trades_for_market env cid 3).isSome := by
  simp only [fetch_trades_for_market]
  have h1 : (fetchSideLoop env cid (strLit "BUY") 3 0 ([], [])).isSome :=
    fetchSideLoopStart env cid (strLit "BUY") 1 ([], [])
  obtain ⟨r1, hr1⟩ := Option.isSome_iff_exists.mp h1
  rw [hr1]
  cases r1 with
  | error e => simp
  | ok st1 =>
    have h2 : (fetchSideLoop env cid (strLit "SELL") 3 0 st1).isSome :=
      fetchSideLoopStart env cid (strLit "SELL") 1 st1
    obtain ⟨r2, hr2⟩ := Option.isSome_iff_exists.mp h2
    cases r2 with
    | error e => simp [hr2]
    | ok st2 => simp [hr2]

/-- With `max_pages = m`, the cursor loop returns within `m` pages: fuel
`pages + fuel ≥ m` (with at least one unit) suffices for every server,
cursor and accumulator. -/
theorem clobLoopBounded (env : Env) (asOf : Option ℚ) (params : List (Str × PyVal))
    (ofp : Bool) (m : ℕ) :
    ∀ (fuel : ℕ), ∀ (pages : ℕ) (cursor : PyVal) (acc : List Trade),
    1 ≤ fuel → m ≤ pages + fuel →
    ((clobLoop env asOf params ofp (some m) fuel cursor pages acc).1).isSome := by
  intro fuel
  induction fuel with
  | zero => intro pages cursor acc h _; omega
  | succ n ih =>
    intro pages cursor acc _ hm
    simp only [clobLoop]
    by_cases hc : cursorTerminal cursor = true
    · rw [if_pos hc]; simp
    · rw [if_neg hc]
      cases hg : getJsonCore (env ⟨.clob, strLit "/data/trades",
          filterParams (params ++ [(strLit "next_cursor", cursor)]), true⟩) with
      | error e => simp
      | ok data =>
        cases data with
        | dict d =>
          by_cases hofp : ofp = true
          · simp [hofp]
          · rw [Bool.not_eq_true] at hofp
            subst hofp
            by_cases hmp : m ≤ pages + 1
            · simp [hmp]
            · have hn : 1 ≤ n := by omega
              have := ih (pages + 1) (dictGet (.dict d) (strLit "next_cursor"))
                ((acc ++ match pyOr (dictGet (.dict d) (strLit "data")) (.list []) with
                  | .list items => collectClobTrades asOf items
                  | _ => [])) hn (by omega)
              simp [hmp, this]
        | list xs =>
          by_cases hofp : ofp = true
          · simp [hofp]
          · rw [Bool.not_eq_true] at hofp
            subst hofp
            by_cases hmp : m ≤ pages + 1
            · simp [hmp]
            · have hn : 1 ≤ n := by omega
              have := ih (pages + 1) PyVal.none (acc ++ collectClobTrades asOf xs)
                hn (by omega)
              simp [hmp, this]
        | none => simp
        | bool b => simp
        | int k => simp
        | float q => simp
        | str s => simp
        | datetime y mo dd hh mi sec tz => simp
        | date y mo dd => simp

/-- With `only_first_page` set the cursor loop returns on its first
iteration, for every server, cursor and accumulator. -/
theorem clobLoopFirstPage (env : Env) (asOf : Option ℚ) (params : List (Str × PyVal))
    (mp : Option ℕ) (fuel : ℕ) (cursor : PyVal) (pages : ℕ) (acc : List Trade) :
    ((clobLoop env asOf params true mp (fuel+1) cursor pages acc).1).isSome := by
  simp only [clobLoop]
  by_cases hc : cursorTerminal cursor = true
  · rw [if_pos hc]; simp
  · rw [if_neg hc]
    cases hg : getJsonCore (env ⟨.clob, strLit "/data/trades",
        filterParams (params ++ [(strLit "next_cursor", cursor)]), true⟩) with
    | error e => simp
    | ok data => cases data <;> simp

/-- `get_clob_trades` with `max_pages = m` is total at fuel `m+1`, for every
server and argument vector. -/
theorem clobMaxPagesTotal (env : Env) (asOf : Option ℚ) (tid ma mk aid : Option Str)
    (before after : PyVal) (nc : Option Str) (hp : Bool) (m : ℕ) :
    ((get_clob_trades env asOf (m+1) tid ma mk aid before after nc false (some m) hp).1).isSome := by
  simp only [get_clob_trades]
  by_cases he : (match asOf, parse_int after with
    | some t, some a => decide (pyTrunc t < a)
    | _, _ => false) = true
  · rw [if_pos he]; simp
  · rw [if_neg he]
    by_cases hhp : (!hp) = true
    · rw [if_pos hhp]; simp
    · rw [if_neg hhp]
      exact clobLoopBounded env asOf _ false m (m+1) 0 _ [] (by omega) (by omega)

/-- `get_clob_trades` with `only_first_page` is total at fuel 1, for every
server and argument vector. -/
theorem clobFirstPageTotal (env : Env) (asOf : Option ℚ) (tid ma mk aid : Option Str)
    (before after : PyVal) (nc : Option Str) (mp : Option ℕ) (hp : Bool) :
    ((get_clob_trades env asOf 1 tid ma mk aid before after nc true mp hp).1).isSome := by
  simp only [get_clob_trades]
  by_cases he : (match asOf, parse_int after with
    | some t, some a => decide (pyTrunc t < a)
    | _, _ => false) = true
  · rw [if_pos he]; simp
  · rw [if_neg he]
    by_cases hhp : (!hp) = true
    · rw [if_pos hhp]; simp
    · rw [if_neg hhp]
      exact clobLoopFirstPage env asOf _ mp 0 _ 0 []

/-- A first page with no data and the terminal cursor ends the no-filter
cursor loop with the untouched accumulator. -/
theorem clobLoopEmptyRun (env : Env)
    (hresp : env emptyClobReq = .ok 200 (some emptyClobPage))
    (fuel pages : ℕ) (acc : List Trade) :
    (clobLoop env Option.none clobBadParams false Option.none (fuel+2)
      (.str (strLit "MA==")) pages acc).1 = some (.ok (acc ++ [])) := by
  show (clobLoop env Option.none clobBadParams false Option.none ((fuel+1)+1)
      (.str (strLit "MA==")) pages acc).1 = some (.ok (acc ++ []))
  simp only [clobLoop]
  rw [if_neg (by decide : ¬ cursorTerminal (.str (strLit "MA==")) = true)]
  rw [show (⟨.clob, strLit "/data/trades",
      filterParams (clobBadParams ++ [(strLit "next_cursor", PyVal.str (strLit "MA=="))]),
      true⟩ : Request) = emptyClobReq from rfl, hresp]
  rfl

/-- An empty terminal first page makes the no-filter `get_clob_trades` call
return the empty trade list (no-more-data, not an error). -/
theorem clobEmptyFirst (env : Env)
    (hresp : env emptyClobReq = .ok 200 (some emptyClobPage)) :
    (get_clob_trades env Option.none 2 Option.none Option.none Option.none Option.none
      .none .none Option.none false Option.none true).1 = some (.ok []) := by
  show (clobLoop env Option.none clobBadParams false Option.none 2
      (.str (strLit "MA==")) 0 []).1 = some (.ok [])
  have h := clobLoopEmptyRun env hresp 0 0 []
  simpa using h

/-- The pull_events offset loop returns whenever some page within the fuel
horizon is decisive (errors, or comes back shorter than the requested 500). -/
theorem pullLoopStops (env : Env) : ∀ (fuel : ℕ) (offset : ℤ) (acc : List EventSummary),
    (∃ j : ℕ, j < fuel ∧ pullStops env (offset + 500 * (j : ℤ))) →
    (pullLoop env fuel offset acc).isSome := by
  intro fuel
  induction fuel with
  | zero =>
    intro offset acc h
    obtain ⟨j, hj, _⟩ := h
    omega
  | succ n ih =>
    intro offset acc h
    obtain ⟨j, hj, hstop⟩ := h
    simp only [pullLoop]
    cases hle : list_events env Option.none
      [(strLit "limit", .int 500), (strLit "offset", .int offset)] false with
    | error e => simp
    | ok batch =>
      by_cases hemp : batch.isEmpty
      · simp [hemp]
      · by_cases hlen : batch.length < 500
        · simp [hemp, hlen]
        · cases j with
          | zero =>
            exfalso
            have hb := hstop batch
            rw [show offset + 500 * ((0:ℕ) : ℤ) = offset by push_cast; ring] at hb
            exact hlen (hb hle)
          | succ k =>
            simp only [hemp, hlen, if_neg, if_false, Bool.false_eq_true]
            apply ih
            refine ⟨k, by omega, ?_⟩
            rw [show offset + 500 + 500 * ((k:ℕ) : ℤ)
              = offset + 500 * (((k+1:ℕ)) : ℤ) by push_cast; ring]
            exact hstop

/-- An empty first page makes `pull_all_events` return the empty summary
list (no-more-data, not an error). -/
theorem pullEmptyFirst (env : Env)
    (hresp : env eventsReq0 = .ok 200 (some (.list []))) :
    pull_all_events env 1 = some (.ok []) := by
  have hle : list_events env Option.none
      [(strLit "limit", .int 500), (strLit "offset", .int 0)] false = .ok [] := by
    simp only [list_events, getJson]
    rw [show (⟨.gamma, strLit "/events",
      filterParams [(strLit "limit", PyVal.int 500), (strLit "offset", PyVal.int 0)],
      false⟩ : Request) = eventsReq0 from rfl, hresp]
    rfl
  show (pullLoop env 1 0 []).map (Except.map sortSummaries) = some (.ok [])
  rw [show (1:ℕ) = 0 + 1 from rfl]
  simp only [pullLoop, hle]
  rfl

/-- C6 (amended): pagination terminates only where a bound exists — the
dual-pass trade driver is total within two iterations per side (its
max-offset ceiling), `get_clob_trades` with `max_pages = m` within `m` pages
and with `only_first_page` within one page, an empty terminal first CLOB
page yields the empty trade list, the pull_events offset loop returns
whenever some reachable page errors or is shorter than the requested 500,
and an empty first events page yields the empty summary list; but (see the
counterexample) the cursor loop without `max_pages` is NOT terminating for
every response sequence. -/
theorem C6_pagination :
    (∀ (env : Env) (cid : Str), (fetch_trades_for_market env cid 3).isSome)
    ∧ (∀ (env : Env) (asOf : Option ℚ) (tid ma mk aid : Option Str) (before after : PyVal)
        (nc : Option Str) (hp : Bool) (m : ℕ),
        ((get_clob_trades env asOf (m+1) tid ma mk aid before after nc false (some m) hp).1).isSome)
    ∧ (∀ (env : Env) (asOf : Option ℚ) (tid ma mk aid : Option Str) (before after : PyVal)
        (nc : Option Str) (mp : Option ℕ) (hp : Bool),
        ((get_clob_trades env asOf 1 tid ma mk aid before after nc true mp hp).1).isSome)
    ∧ (∀ env : Env, env emptyClobReq = .ok 200 (some emptyClobPage) →
        (get_clob_trades env Option.none 2 Option.none Option.none Option.none Option.none
          .none .none Option.none false Option.none true).1 = some (.ok []))
    ∧ (∀ (env : Env) (fuel : ℕ) (offset : ℤ) (acc : List EventSummary),
        (∃ j : ℕ, j < fuel ∧ pullStops env (offset + 500 * (j : ℤ))) →
        (pullLoop env fuel offset acc).isSome)
    ∧ (∀ env : Env, env eventsReq0 = .ok 200 (some (.list [])) →
        pull_all_events env 1 = some (.ok [])) :=
  ⟨fetchTotal, clobMaxPagesTotal, clobFirstPageTotal, clobEmptyFirst, pullLoopStops,
    pullEmptyFirst⟩

/-- Concrete instances of every clause of the amended C6 theorem. -/
theorem C6_pagination_witness :
    (fetch_trades_for_market envEmptyList (strLit "c") 3).isSome
    ∧ ((get_clob_trades envEmptyList Option.none 1 Option.none Option.none Option.none
        Option.none .none .none Option.none false (some 0) true).1).isSome
    ∧ ((get_clob_trades envEmptyList Option.none 1 Option.none Option.none Option.none
        Option.none .none .none Option.none true Option.none true).1).isSome
    ∧ (get_clob_trades envEmptyClob Option.none 2 Option.none Option.none Option.none
        Option.none .none .none Option.none false Option.none true).1 = some (.ok [])
    ∧ (pullLoop envEmptyList 1 0 []).isSome
    ∧ pull_all_events envEmptyList 1 = some (.ok []) := by
  refine ⟨C6_pagination.1 envEmptyList (strLit "c"),
    C6_pagination.2.1 envEmptyList Option.none Option.none Option.none Option.none
      Option.none .none .none Option.none true 0,
    C6_pagination.2.2.1 envEmptyList Option.none Option.none Option.none Option.none
      Option.none .none .none Option.none Option.none true,
    C6_pagination.2.2.2.1 envEmptyClob rfl,
    C6_pagination.2.2.2.2.1 envEmptyList 1 0 [] ⟨0, by omega, ?_⟩,
    C6_pagination.2.2.2.2.2 envEmptyList rfl⟩
  intro batch h
  rw [show list_events envEmptyList Option.none
      [(strLit "limit", .int 500), (strLit "offset", .int (0 + 500 * ((0:ℕ) : ℤ)))] false
      = .ok [] from rfl] at h
  injection h with h
  rw [← h]
  decide



/-- Page processing preserves the dedup invariant: output keys stay distinct
and every output key is in the seen set. -/
theorem processTradePageInv : ∀ (page : List PublicTrade) (seen : List Str)
    (acc : List (Str × TradeEntry)),
    (acc.map Prod.fst).Nodup → (∀ k ∈ acc.map Prod.fst, k ∈ seen) →
    (((processTradePage seen acc page).2.map Prod.fst).Nodup ∧
     ∀ k ∈ (processTradePage seen acc page).2.map Prod.fst,
       k ∈ (processTradePage seen acc page).1) := by
  intro page
  induction page with
  | nil => intro seen acc h1 h2; exact ⟨h1, h2⟩
  | cons t rest ih =>
    intro seen acc h1 h2
    simp only [processTradePage]
    split
    case h_1 key entry heq =>
      apply ih
      · have hkey : ¬ (seen.contains key = true) := by
          split at heq
          case h_1 price size =>
            split at heq
            · exact absurd heq (by simp)
            · split at heq
              · exact absurd heq (by simp)
              · split at heq
                · exact absurd heq (by simp)
                · rename_i hcont
                  injection heq with heq2
                  injection heq2 with hk he
                  subst hk
                  exact hcont
          case h_2 => exact absurd heq (by simp)
        have hnotseen : key ∉ seen := by
          intro hmem
          exact hkey (List.elem_iff.mpr hmem)
        have hnotacc : key ∉ acc.map Prod.fst := fun hmem => hnotseen (h2 key hmem)
        simp only [List.map_append, List.map_cons, List.map_nil]
        exact List.Nodup.append h1 (List.nodup_singleton key)
          (by simpa [List.disjoint_singleton] using hnotacc)
      · intro k hk
        simp only [List.map_append, List.map_cons, List.map_nil, List.mem_append,
          List.mem_singleton] at hk ⊢
        rcases hk with hk | hk
        · exact Or.inl (h2 k hk)
        · exact Or.inr hk
    case h_2 heq => exact ih seen acc h1 h2

/-- The per-side offset loop preserves the dedup invariant. -/
theorem fetchSideLoopInv (env : Env) (cid side : Str) :
    ∀ (fuel : ℕ) (offset : ℤ) (st st2 : List Str × List (Str × TradeEntry)),
    (st.2.map Prod.fst).Nodup → (∀ k ∈ st.2.map Prod.fst, k ∈ st.1) →
    fetchSideLoop env cid side fuel offset st = some (.ok st2) →
    ((st2.2.map Prod.fst).Nodup ∧ ∀ k ∈ st2.2.map Prod.fst, k ∈ st2.1) := by
  intro fuel
  induction fuel with
  | zero =>
    intro offset st st2 h1 h2 h
    exact absurd h (by simp [fetchSideLoop])
  | succ n ih =>
    intro offset st st2 h1 h2 h
    simp only [fetchSideLoop] at h
    by_cases ho : offset > 10000
    · rw [if_pos ho] at h
      injection h with h
      injection h with h
      subst h
      exact ⟨h1, h2⟩
    · rw [if_neg ho] at h
      split at h
      · simp at h
      · rename_i page heq
        by_cases hemp : page.isEmpty
        · rw [if_pos hemp] at h
          injection h with h
          injection h with h
          subst h
          exact ⟨h1, h2⟩
        · rw [if_neg hemp] at h
          by_cases hlen : page.length < 10000
          · rw [if_pos hlen] at h
            injection h with h
            injection h with h
            subst h
            exact processTradePageInv page st.1 st.2 h1 h2
          · rw [if_neg hlen] at h
            by_cases hoff : offset + 10000 > 10000
            · rw [if_pos hoff] at h
              injection h with h
              injection h with h
              subst h
              exact processTradePageInv page st.1 st.2 h1 h2
            · rw [if_neg hoff] at h
              have hinv := processTradePageInv page st.1 st.2 h1 h2
              exact ih (offset + 10000) (processTradePage st.1 st.2 page) st2
                hinv.1 hinv.2 h

/-- Every successful dual-pass run has pairwise-distinct composite keys
across both partitions. -/
theorem fetchKeysNodup (env : Env) (cid : Str) (fuel : ℕ)
    (out : List (Str × TradeEntry))
    (h : fetch_trades_for_market env cid fuel = some (.ok out)) :
    (out.map Prod.fst).Nodup := by
  simp only [fetch_trades_for_market] at h
  split at h
  · exact absurd h (by simp)
  · exact absurd h (by simp)
  · rename_i st1 heq1
    split at h
    · exact absurd h (by simp)
    · exact absurd h (by simp)
    · rename_i st2 heq2
      injection h with h
      injection h with h
      subst h
      have hinv1 := fetchSideLoopInv env cid (strLit "BUY") fuel 0 ([], []) st1
        (by simp) (by simp) heq1
      exact (fetchSideLoopInv env cid (strLit "SELL") fuel 0 st1 st2
        hinv1.1 hinv1.2 heq2).1

/-- C7: the dual-pass trade driver deduplicates by the composite natural key
(transaction hash, timestamp, account, condition id, side, size, price) —
every successful run has pairwise-distinct keys across the BUY and SELL
partitions; and on two concrete pages overlapping in exactly one entry
(`c7RawA` on both the BUY and the SELL page) the output holds exactly one
copy of that entry and one of the other. -/
theorem C7_dedup :
    (∀ (env : Env) (cid : Str) (fuel : ℕ) (out : List (Str × TradeEntry)),
      fetch_trades_for_market env cid fuel = some (.ok out) →
      (out.map Prod.fst).Nodup)
    ∧ fetch_trades_for_market envC7 (strLit "c") 3 = some (.ok c7Out)
    ∧ (c7Out.map Prod.fst).count c7KeyA = 1
    ∧ c7Out.length = 2 :=
  ⟨fetchKeysNodup, rfl, by decide, rfl⟩

/-- The distinct-keys clause of C7 instantiated on the concrete overlapping
run (the hypothesis is discharged by evaluation). -/
theorem C7_dedup_witness : (c7Out.map Prod.fst).Nodup :=
  C7_dedup.1 envC7 (strLit "c") 3 c7Out rfl


/-- Two-digit rendering parses back to its value. -/
theorem parse2_pad2n (n : ℕ) (rest : Str) (h : n ≤ 99) :
    parse2 (pad2n n ++ rest) = some (n, rest) := by
  show parse2 ((48 + n / 10 % 10) :: (48 + n % 10) :: rest) = some (n, rest)
  simp only [parse2]
  rw [if_pos]
  · have e1 : 48 + n / 10 % 10 - 48 = n / 10 := by omega
    have e2 : 48 + n % 10 - 48 = n % 10 := by omega
    rw [e1, e2]
    have : n / 10 * 10 + n % 10 = n := by omega
    rw [this]
  · simp only [isDigit, Bool.and_eq_true, decide_eq_true_eq]
    omega

/-- Four-digit rendering parses back to its value. -/
theorem parse4_pad4n (n : ℕ) (rest : Str) (h : n ≤ 9999) :
    parse4 (pad4n n ++ rest) = some (n, rest) := by
  show parse4 ((48 + n / 1000 % 10) :: (48 + n / 100 % 10) :: (48 + n / 10 % 10)
    :: (48 + n % 10) :: rest) = some (n, rest)
  simp only [parse4]
  rw [if_pos]
  · have e1 : 48 + n / 1000 % 10 - 48 = n / 1000 := by omega
    have e2 : 48 + n / 100 % 10 - 48 = n / 100 % 10 := by omega
    have e3 : 48 + n / 10 % 10 - 48 = n / 10 % 10 := by omega
    have e4 : 48 + n % 10 - 48 = n % 10 := by omega
    rw [e1, e2, e3, e4]
    have : (n / 1000 * 10 + n / 100 % 10) * 100 + (n / 10 % 10 * 10 + n % 10) = n := by omega
    rw [this]
  · simp only [isDigit, Bool.and_eq_true, decide_eq_true_eq]
    omega









/-- The time parser inverts the `HH:MM:SS` rendering, leaving the suffix. -/
theorem parseTimeBody_render (hh mi ss : ℕ) (suffix : Str)
    (hhh : hh ≤ 23) (hmi : mi ≤ 59) (hss : ss ≤ 59)
    (hshape : suffix = [] ∨ (∃ t, suffix = 43 :: t) ∨ (∃ t, suffix = 45 :: t)) :
    parseTimeBody (pad2n hh ++ (58 :: (pad2n mi ++ (58 :: (pad2n ss ++ suffix)))))
      = some (qOfInt (3600 * hh + 60 * mi + ss : ℤ), suffix) := by
  simp only [parseTimeBody]
  rw [parse2_pad2n hh _ (by omega)]
  simp only [Option.some_bind]
  rw [if_neg (by omega : ¬ hh > 23)]
  rw [parse2_pad2n mi _ (by omega)]
  simp only [Option.some_bind]
  rw [if_neg (by omega : ¬ mi > 59)]
  rw [parse2_pad2n ss _ (by omega)]
  simp only [Option.some_bind]
  rw [if_neg (by omega : ¬ ss > 59)]
  rcases hshape with rfl | ⟨t, rfl⟩ | ⟨t, rfl⟩ <;> rfl



/-- Two-digit rendering with nothing following. -/
theorem parse2_pad2n_nil (n : ℕ) (h : n ≤ 99) : parse2 (pad2n n) = some (n, []) := by
  have := parse2_pad2n n [] h
  rwa [List.append_nil] at this

/-- The offset-body parser inverts the `HH:MM` rendering. -/
theorem parseOffsetBody_render (oh om : ℕ) (hoh : oh ≤ 23) (hom : om ≤ 59) :
    parseOffsetBody (pad2n oh ++ (58 :: pad2n om)) = some ((3600 * oh + 60 * om : ℕ) : ℤ) := by
  simp only [parseOffsetBody]
  rw [parse2_pad2n oh _ (by omega)]
  simp only [Option.some_bind]
  rw [if_neg (by omega : ¬ oh > 23)]
  rw [parse2_pad2n_nil om (by omega)]
  simp only [Option.some_bind]
  rw [if_neg (by omega : ¬ om > 59)]
  push_cast
  ring_nf

/-- The offset-suffix parser inverts the signed `±HH:MM` rendering. -/
theorem parseOffsetPart_suffix (sgn : Bool) (oh om : ℕ) (hoh : oh ≤ 23) (hom : om ≤ 59) :
    parseOffsetPart (offsetSuffix sgn oh om)
      = some (some (if sgn then -((3600 * oh + 60 * om : ℕ) : ℤ)
                    else ((3600 * oh + 60 * om : ℕ) : ℤ))) := by
  cases sgn with
  | false =>
    show parseOffsetPart (43 :: (pad2n oh ++ (58 :: pad2n om))) = _
    simp only [parseOffsetPart]
    rw [show pad2n oh ++ (58 :: pad2n om) = pad2n oh ++ (58 :: pad2n om) from rfl,
      parseOffsetBody_render oh om hoh hom]
    rfl
  | true =>
    show parseOffsetPart (45 :: (pad2n oh ++ (58 :: pad2n om))) = _
    simp only [parseOffsetPart]
    rw [parseOffsetBody_render oh om hoh hom]
    rfl



/-- Z-replacement distributes over concatenation. -/
theorem replaceZ_append (a b : Str) : replaceZ (a ++ b) = replaceZ a ++ replaceZ b := by
  induction a with
  | nil => rfl
  | cons c r ih =>
    simp only [List.cons_append, replaceZ]
    split <;> simp [show List.append r b = r ++ b from rfl, ih]

/-- Z-replacement passes over any non-Z character. -/
theorem replaceZ_cons_ne (c : ℕ) (r : Str) (h : ¬ c = 90) :
    replaceZ (c :: r) = c :: replaceZ r := by
  simp only [replaceZ, if_neg h]

/-- Digit renderings contain no Z. -/
theorem replaceZ_pad2 (n : ℕ) : replaceZ (pad2n n) = pad2n n := by
  show replaceZ ((48 + n / 10 % 10) :: [48 + n % 10]) = _
  rw [replaceZ_cons_ne _ _ (by omega), replaceZ_cons_ne _ _ (by omega)]
  rfl

/-- Four-digit renderings contain no Z. -/
theorem replaceZ_pad4 (n : ℕ) : replaceZ (pad4n n) = pad4n n := by
  show replaceZ ((48 + n / 1000 % 10) :: (48 + n / 100 % 10) :: (48 + n / 10 % 10)
    :: [48 + n % 10]) = _
  rw [replaceZ_cons_ne _ _ (by omega), replaceZ_cons_ne _ _ (by omega),
    replaceZ_cons_ne _ _ (by omega), replaceZ_cons_ne _ _ (by omega)]
  rfl

/-- Z-replacement touches only the suffix of a wall-time rendering. -/
theorem replaceZ_wall (y mo dy hh mi ss : ℕ) (suffix : Str) :
    replaceZ (isoWallRender y mo dy hh mi ss suffix)
      = isoWallRender y mo dy hh mi ss (replaceZ suffix) := by
  show replaceZ (pad4n y ++ (45 :: (pad2n mo ++ (45 :: (pad2n dy ++ (84 :: (pad2n hh ++ (58 ::
      (pad2n mi ++ (58 :: (pad2n ss ++ suffix))))))))))) = _
  rw [replaceZ_append, replaceZ_pad4,
    replaceZ_cons_ne 45 _ (by omega), replaceZ_append, replaceZ_pad2,
    replaceZ_cons_ne 45 _ (by omega), replaceZ_append, replaceZ_pad2,
    replaceZ_cons_ne 84 _ (by omega), replaceZ_append, replaceZ_pad2,
    replaceZ_cons_ne 58 _ (by omega), replaceZ_append, replaceZ_pad2,
    replaceZ_cons_ne 58 _ (by omega), replaceZ_append, replaceZ_pad2]
  rfl

/-- Date-only renderings contain no Z. -/
theorem replaceZ_dateOnly (y mo dy : ℕ) :
    replaceZ (isoDateOnlyRender y mo dy) = isoDateOnlyRender y mo dy := by
  show replaceZ (pad4n y ++ (45 :: (pad2n mo ++ (45 :: pad2n dy)))) = _
  rw [replaceZ_append, replaceZ_pad4,
    replaceZ_cons_ne 45 _ (by omega), replaceZ_append, replaceZ_pad2,
    replaceZ_cons_ne 45 _ (by omega), replaceZ_pad2]
  rfl

/-- Numeric offset suffixes contain no Z. -/
theorem replaceZ_offsetSuffix (sgn : Bool) (oh om : ℕ) :
    replaceZ (offsetSuffix sgn oh om) = offsetSuffix sgn oh om := by
  cases sgn with
  | false =>
    show replaceZ (43 :: (pad2n oh ++ (58 :: pad2n om))) = _
    rw [replaceZ_cons_ne 43 _ (by omega), replaceZ_append, replaceZ_pad2,
      replaceZ_cons_ne 58 _ (by omega), replaceZ_pad2]
    rfl
  | true =>
    show replaceZ (45 :: (pad2n oh ++ (58 :: pad2n om))) = _
    rw [replaceZ_cons_ne 45 _ (by omega), replaceZ_append, replaceZ_pad2,
      replaceZ_cons_ne 58 _ (by omega), replaceZ_pad2]
    rfl



/-- No month has more than 31 days. -/
theorem daysInMonth_le (y : ℤ) (m : ℕ) : daysInMonth y m ≤ 31 := by
  simp only [daysInMonth]
  split
  · split <;> omega
  · split <;> omega

/-- The embedded `fromisoformat` inverts the wall-time rendering: naive
seconds since the epoch plus the parsed offset. -/
theorem parseISO_wall (y mo dy hh mi ss : ℕ) (suffix : Str) (oo : Option ℤ)
    (hy1 : 1 ≤ y) (hy2 : y ≤ 9999) (hmo1 : 1 ≤ mo) (hmo2 : mo ≤ 12)
    (hdy1 : 1 ≤ dy) (hdy2 : (dy : ℤ) ≤ daysInMonth (y : ℤ) (mo : ℕ))
    (hhh : hh ≤ 23) (hmi : mi ≤ 59) (hss : ss ≤ 59)
    (hshape : suffix = [] ∨ (∃ t, suffix = 43 :: t) ∨ (∃ t, suffix = 45 :: t))
    (hsuf : parseOffsetPart suffix = some oo) :
    parseISO (isoWallRender y mo dy hh mi ss suffix)
      = some (qAdd (qOfInt (86400 * daysFromCivil (y : ℤ) (mo : ℤ) (dy : ℤ)))
          (qOfInt (3600 * hh + 60 * mi + ss : ℤ)), oo) := by
  simp only [parseISO, isoWallRender]
  rw [parse4_pad4n y _ (by omega)]
  simp only [Option.some_bind]
  rw [if_neg (by omega : ¬ y = 0)]
  rw [parse2_pad2n mo _ (by omega)]
  simp only [Option.some_bind]
  rw [if_neg (by omega : ¬ (mo < 1 ∨ 12 < mo))]
  have hdy31 : dy ≤ 31 := by
    have h31 := daysInMonth_le (y : ℤ) mo
    omega
  rw [parse2_pad2n dy _ (by omega)]
  simp only [Option.some_bind]
  rw [if_neg (by omega : ¬ ((dy : ℕ) < 1 ∨ daysInMonth (y : ℤ) (mo : ℕ) < (dy : ℤ)))]
  rw [parseTimeBody_render hh mi ss suffix hhh hmi hss hshape]
  simp only [Option.some_bind]
  rw [hsuf]
  rfl

/-- The embedded `fromisoformat` inverts the date-only rendering. -/
theorem parseISO_dateOnly (y mo dy : ℕ)
    (hy1 : 1 ≤ y) (hy2 : y ≤ 9999) (hmo1 : 1 ≤ mo) (hmo2 : mo ≤ 12)
    (hdy1 : 1 ≤ dy) (hdy2 : (dy : ℤ) ≤ daysInMonth (y : ℤ) (mo : ℕ)) :
    parseISO (isoDateOnlyRender y mo dy)
      = some (qOfInt (86400 * daysFromCivil (y : ℤ) (mo : ℤ) (dy : ℤ)), Option.none) := by
  simp only [parseISO, isoDateOnlyRender]
  rw [parse4_pad4n y _ (by omega)]
  simp only [Option.some_bind]
  rw [if_neg (by omega : ¬ y = 0)]
  rw [parse2_pad2n mo _ (by omega)]
  simp only [Option.some_bind]
  rw [if_neg (by omega : ¬ (mo < 1 ∨ 12 < mo))]
  have hdy31 : dy ≤ 31 := by
    have h31 := daysInMonth_le (y : ℤ) mo
    omega
  rw [parse2_pad2n_nil dy (by omega)]
  simp only [Option.some_bind]
  rw [if_neg (by omega : ¬ ((dy : ℕ) < 1 ∨ daysInMonth (y : ℤ) (mo : ℕ) < (dy : ℤ)))]



/-- Normalizing a naive ISO string gives the civil instant (assumed UTC). -/
theorem parse_datetime_wall_naive (y mo dy hh mi ss : ℕ)
    (hy1 : 1 ≤ y) (hy2 : y ≤ 9999) (hmo1 : 1 ≤ mo) (hmo2 : mo ≤ 12)
    (hdy1 : 1 ≤ dy) (hdy2 : (dy : ℤ) ≤ daysInMonth (y : ℤ) (mo : ℕ))
    (hhh : hh ≤ 23) (hmi : mi ≤ 59) (hss : ss ≤ 59) :
    parse_datetime (.str (isoWallRender y mo dy hh mi ss []))
      = some (qOfInt (86400 * daysFromCivil (y : ℤ) (mo : ℤ) (dy : ℤ)
          + (3600 * hh + 60 * mi + ss : ℤ))) := by
  simp only [parse_datetime, pyStr]
  rw [replaceZ_wall]
  rw [show replaceZ ([] : Str) = [] from rfl]
  rw [parseISO_wall y mo dy hh mi ss [] Option.none hy1 hy2 hmo1 hmo2 hdy1 hdy2 hhh hmi hss
    (Or.inl rfl) rfl]
  simp only [Option.map_some', Option.getD_none]
  congr 1
  rw [qSub_eq, qAdd_eq]
  simp only [qOfInt_eq]
  push_cast
  ring



/-- Normalizing the same wall time suffixed with `Z` gives the same
instant. -/
theorem parse_datetime_wall_z (y mo dy hh mi ss : ℕ)
    (hy1 : 1 ≤ y) (hy2 : y ≤ 9999) (hmo1 : 1 ≤ mo) (hmo2 : mo ≤ 12)
    (hdy1 : 1 ≤ dy) (hdy2 : (dy : ℤ) ≤ daysInMonth (y : ℤ) (mo : ℕ))
    (hhh : hh ≤ 23) (hmi : mi ≤ 59) (hss : ss ≤ 59) :
    parse_datetime (.str (isoWallRender y mo dy hh mi ss [90]))
      = some (qOfInt (86400 * daysFromCivil (y : ℤ) (mo : ℤ) (dy : ℤ)
          + (3600 * hh + 60 * mi + ss : ℤ))) := by
  simp only [parse_datetime, pyStr]
  rw [replaceZ_wall]
  rw [show replaceZ ([90] : Str) = offsetSuffix false 0 0 from rfl]
  rw [parseISO_wall y mo dy hh mi ss (offsetSuffix false 0 0) (some 0) hy1 hy2 hmo1 hmo2
    hdy1 hdy2 hhh hmi hss (Or.inr (Or.inl ⟨_, rfl⟩))
    (by simpa using parseOffsetPart_suffix false 0 0 (by omega) (by omega))]
  simp only [Option.map_some', Option.getD_some]
  congr 1
  rw [qSub_eq, qAdd_eq]
  simp only [qOfInt_eq]
  push_cast
  ring

/-- Normalizing an offset-suffixed ISO string shifts the wall time by the
offset. -/
theorem parse_datetime_wall_offset (y mo dy hh mi ss oh om : ℕ) (sgn : Bool)
    (hy1 : 1 ≤ y) (hy2 : y ≤ 9999) (hmo1 : 1 ≤ mo) (hmo2 : mo ≤ 12)
    (hdy1 : 1 ≤ dy) (hdy2 : (dy : ℤ) ≤ daysInMonth (y : ℤ) (mo : ℕ))
    (hhh : hh ≤ 23) (hmi : mi ≤ 59) (hss : ss ≤ 59)
    (hoh : oh ≤ 23) (hom : om ≤ 59) :
    parse_datetime (.str (isoWallRender y mo dy hh mi ss (offsetSuffix sgn oh om)))
      = some (qOfInt (86400 * daysFromCivil (y : ℤ) (mo : ℤ) (dy : ℤ)
          + (3600 * hh + 60 * mi + ss : ℤ)
          - (if sgn then -1 else 1) * (3600 * oh + 60 * om : ℤ))) := by
  simp only [parse_datetime, pyStr]
  rw [replaceZ_wall, replaceZ_offsetSuffix]
  rw [parseISO_wall y mo dy hh mi ss (offsetSuffix sgn oh om)
    (some (if sgn then -((3600 * oh + 60 * om : ℕ) : ℤ) else ((3600 * oh + 60 * om : ℕ) : ℤ)))
    hy1 hy2 hmo1 hmo2 hdy1 hdy2 hhh hmi hss
    (by cases sgn with
      | false => exact Or.inr (Or.inl ⟨_, rfl⟩)
      | true => exact Or.inr (Or.inr ⟨_, rfl⟩))
    (parseOffsetPart_suffix sgn oh om hoh hom)]
  simp only [Option.map_some', Option.getD_some]
  congr 1
  rw [qSub_eq, qAdd_eq]
  simp only [qOfInt_eq]
  cases sgn <;> · simp only [eq_self_iff_true, if_true, Bool.false_eq_true, if_false]; push_cast; ring

/-- Normalizing a date-only string gives midnight of that day. -/
theorem parse_datetime_dateOnly (y mo dy : ℕ)
    (hy1 : 1 ≤ y) (hy2 : y ≤ 9999) (hmo1 : 1 ≤ mo) (hmo2 : mo ≤ 12)
    (hdy1 : 1 ≤ dy) (hdy2 : (dy : ℤ) ≤ daysInMonth (y : ℤ) (mo : ℕ)) :
    parse_datetime (.str (isoDateOnlyRender y mo dy))
      = some (qOfInt (86400 * daysFromCivil (y : ℤ) (mo : ℤ) (dy : ℤ))) := by
  simp only [parse_datetime, pyStr]
  rw [replaceZ_dateOnly]
  rw [parseISO_dateOnly y mo dy hy1 hy2 hmo1 hmo2 hdy1 hdy2]
  simp only [Option.map_some', Option.getD_none]
  congr 1
  rw [qSub_eq]
  simp only [qOfInt_eq]
  push_cast
  ring

/-- Normalizing a raw date object gives midnight of that day. -/
theorem parse_datetime_dateObj (y mo dy : ℤ) :
    parse_datetime (.date y mo dy) = some (qOfInt (86400 * daysFromCivil y mo dy)) := rfl

/-- Normalizing an epoch integer gives that second. -/
theorem parse_datetime_epochInt (n : ℤ) : parse_datetime (.int n) = some (qOfInt n) := rfl



/-- `_parse_unix_timestamp` on a float: divide by 1000 exactly above 10^12. -/
theorem parse_unix_float (q : ℚ) :
    parse_unix_timestamp (.float q)
      = some (if q > 1000000000000 then qDivInt q 1000 else q) := rfl

/-- The parse unix timestamp function on an integer: divide by 1000 exactly above 10^12. -/
theorem parse_unix_int (n : ℤ) :
    parse_unix_timestamp (.int n)
      = some (if qOfInt n > 1000000000000 then qDivInt (qOfInt n) 1000 else qOfInt n) := rfl

/-- A millisecond epoch number above the threshold normalizes to the same
instant as its second-valued counterpart. -/
theorem parse_unix_millis (n : ℤ) (h : 1000000000 < n) :
    parse_unix_timestamp (.int (1000 * n)) = parse_datetime (.int n) := by
  rw [parse_unix_int, parse_datetime_epochInt]
  rw [if_pos]
  · congr 1
    rw [qDivInt_eq]
    simp only [qOfInt_eq]
    push_cast
    field_simp
  · rw [qOfInt_eq]
    have : (1000000000000 : ℤ) < 1000 * n := by omega
    exact_mod_cast this

/-- An epoch number at or below 10^12 is taken as seconds, agreeing with
the datetime parser. -/
theorem parse_unix_seconds (n : ℤ) (h : n ≤ 1000000000000) :
    parse_unix_timestamp (.int n) = parse_datetime (.int n) := by
  rw [parse_unix_int, parse_datetime_epochInt]
  rw [if_neg]
  rw [qOfInt_eq]
  exact not_lt.mpr (by exact_mod_cast h)

/-- An unparsable string yields an absent value, not an error. -/
theorem parse_dt_unparsable : parse_datetime (.str (strLit "not-a-date")) = Option.none := rfl

/-- An unparsable trade timestamp yields an absent value, not an error. -/
theorem parse_unix_unparsable : parse_unix_timestamp (.str (strLit "n/a")) = Option.none := rfl



/-- C4: every representation of a civil UTC instant — naive ISO wall-time
string, `Z`-suffixed string, offset-suffixed string (shifted by its offset),
date-only string, raw date object, epoch integer — normalizes to the same
UTC instant; epoch numbers through `_parse_unix_timestamp` are disambiguated
by magnitude (strictly above 10^12 is milliseconds, otherwise seconds,
agreeing with the datetime parser on the represented instant); and
unparsable values yield an absent value, never an error. -/
theorem C4_timestamp_normalization :
    (∀ (y mo dy hh mi ss : ℕ), 1 ≤ y → y ≤ 9999 → 1 ≤ mo → mo ≤ 12 →
      1 ≤ dy → (dy : ℤ) ≤ daysInMonth (y : ℤ) (mo : ℕ) → hh ≤ 23 → mi ≤ 59 → ss ≤ 59 →
      (parse_datetime (.str (isoWallRender y mo dy hh mi ss []))
          = some (qOfInt (86400 * daysFromCivil (y : ℤ) (mo : ℤ) (dy : ℤ)
              + (3600 * hh + 60 * mi + ss : ℤ)))
        ∧ parse_datetime (.str (isoWallRender y mo dy hh mi ss [90]))
          = some (qOfInt (86400 * daysFromCivil (y : ℤ) (mo : ℤ) (dy : ℤ)
              + (3600 * hh + 60 * mi + ss : ℤ)))
        ∧ parse_datetime (.int (86400 * daysFromCivil (y : ℤ) (mo : ℤ) (dy : ℤ)
              + (3600 * hh + 60 * mi + ss : ℤ)))
          = some (qOfInt (86400 * daysFromCivil (y : ℤ) (mo : ℤ) (dy : ℤ)
              + (3600 * hh + 60 * mi + ss : ℤ)))))
    ∧ (∀ (y mo dy hh mi ss oh om : ℕ) (sgn : Bool), 1 ≤ y → y ≤ 9999 → 1 ≤ mo → mo ≤ 12 →
      1 ≤ dy → (dy : ℤ) ≤ daysInMonth (y : ℤ) (mo : ℕ) → hh ≤ 23 → mi ≤ 59 → ss ≤ 59 →
      oh ≤ 23 → om ≤ 59 →
      parse_datetime (.str (isoWallRender y mo dy hh mi ss (offsetSuffix sgn oh om)))
        = some (qOfInt (86400 * daysFromCivil (y : ℤ) (mo : ℤ) (dy : ℤ)
            + (3600 * hh + 60 * mi + ss : ℤ)
            - (if sgn then -1 else 1) * (3600 * oh + 60 * om : ℤ))))
    ∧ (∀ (y mo dy : ℕ), 1 ≤ y → y ≤ 9999 → 1 ≤ mo → mo ≤ 12 →
      1 ≤ dy → (dy : ℤ) ≤ daysInMonth (y : ℤ) (mo : ℕ) →
      (parse_datetime (.str (isoDateOnlyRender y mo dy))
          = some (qOfInt (86400 * daysFromCivil (y : ℤ) (mo : ℤ) (dy : ℤ)))
        ∧ parse_datetime (.date (y : ℤ) (mo : ℤ) (dy : ℤ))
          = some (qOfInt (86400 * daysFromCivil (y : ℤ) (mo : ℤ) (dy : ℤ)))))
    ∧ (∀ n : ℤ, parse_datetime (.int n) = some (qOfInt n))
    ∧ (∀ q : ℚ, parse_unix_timestamp (.float q)
        = some (if q > 1000000000000 then qDivInt q 1000 else q))
    ∧ (∀ n : ℤ, 1000000000 < n →
        parse_unix_timestamp (.int (1000 * n)) = parse_datetime (.int n))
    ∧ (∀ n : ℤ, n ≤ 1000000000000 →
        parse_unix_timestamp (.int n) = parse_datetime (.int n))
    ∧ parse_datetime PyVal.none = Option.none
    ∧ parse_datetime (.str (strLit "not-a-date")) = Option.none
    ∧ parse_unix_timestamp (.str (strLit "n/a")) = Option.none := by
  refine ⟨?_, ?_, ?_, parse_datetime_epochInt, parse_unix_float, parse_unix_millis,
    parse_unix_seconds, rfl, parse_dt_unparsable, parse_unix_unparsable⟩
  · intro y mo dy hh mi ss h1 h2 h3 h4 h5 h6 h7 h8 h9
    exact ⟨parse_datetime_wall_naive y mo dy hh mi ss h1 h2 h3 h4 h5 h6 h7 h8 h9,
      parse_datetime_wall_z y mo dy hh mi ss h1 h2 h3 h4 h5 h6 h7 h8 h9,
      parse_datetime_epochInt _⟩
  · intro y mo dy hh mi ss oh om sgn h1 h2 h3 h4 h5 h6 h7 h8 h9 h10 h11
    exact parse_datetime_wall_offset y mo dy hh mi ss oh om sgn h1 h2 h3 h4 h5 h6 h7 h8 h9 h10 h11
  · intro y mo dy h1 h2 h3 h4 h5 h6
    exact ⟨parse_datetime_dateOnly y mo dy h1 h2 h3 h4 h5 h6,
      parse_datetime_dateObj _ _ _⟩

/-- Concrete instances of every clause of C4 at 2024-01-15 12:30:45 UTC. -/
theorem C4_timestamp_normalization_witness :
    (parse_datetime (.str (isoWallRender 2024 1 15 12 30 45 []))
        = some (qOfInt (86400 * daysFromCivil 2024 1 15 + (3600 * 12 + 60 * 30 + 45)))
      ∧ parse_datetime (.str (isoWallRender 2024 1 15 12 30 45 [90]))
        = some (qOfInt (86400 * daysFromCivil 2024 1 15 + (3600 * 12 + 60 * 30 + 45)))
      ∧ parse_datetime (.int (86400 * daysFromCivil 2024 1 15 + (3600 * 12 + 60 * 30 + 45)))
        = some (qOfInt (86400 * daysFromCivil 2024 1 15 + (3600 * 12 + 60 * 30 + 45))))
    ∧ parse_datetime (.str (isoWallRender 2024 1 15 12 30 45 (offsetSuffix false 5 30)))
        = some (qOfInt (86400 * daysFromCivil 2024 1 15 + (3600 * 12 + 60 * 30 + 45)
            - (if false then -1 else 1) * (3600 * 5 + 60 * 30)))
    ∧ (parse_datetime (.str (isoDateOnlyRender 2024 1 15))
        = some (qOfInt (86400 * daysFromCivil 2024 1 15))
      ∧ parse_datetime (.date 2024 1 15) = some (qOfInt (86400 * daysFromCivil 2024 1 15)))
    ∧ parse_unix_timestamp (.int (1000 * 1700000000)) = parse_datetime (.int 1700000000)
    ∧ parse_unix_timestamp (.int 1700000000) = parse_datetime (.int 1700000000) := by
  refine ⟨?_, ?_, ?_, ?_, ?_⟩
  · have h := C4_timestamp_normalization.1 2024 1 15 12 30 45 (by omega) (by omega) (by omega)
      (by omega) (by omega) (by decide) (by omega) (by omega) (by omega)
    exact_mod_cast h
  · have h := C4_timestamp_normalization.2.1 2024 1 15 12 30 45 5 30 false (by omega) (by omega)
      (by omega) (by omega) (by omega) (by decide) (by omega) (by omega) (by omega)
      (by omega) (by omega)
    exact_mod_cast h
  · have h := C4_timestamp_normalization.2.2.1 2024 1 15 (by omega) (by omega) (by omega)
      (by omega) (by omega) (by decide)
    exact_mod_cast h
  · exact C4_timestamp_normalization.2.2.2.2.2.1 1700000000 (by omega)
  · exact C4_timestamp_normalization.2.2.2.2.2.2.1 1700000000 (by omega)


/-- C8: the L2 signature construction is deterministic — two invocations
with identical secret, timestamp, HTTP method, request path and body produce
the identical signature (body serialization `str(body)` walks the
insertion-ordered dict entries, so no nondeterministic iteration order
enters the message) — and the source agrees exactly with the spec-worded
construction: HMAC-SHA256 over the canonical message timestamp + method +
path (+ the quote-normalized serialized body when present), keyed by the
base64url-decoded secret and re-encoded to base64url. -/
theorem C8_hmac_signature :
    (∀ (s1 s2 : Str) (t1 t2 : ℤ) (m1 m2 p1 p2 : Str) (b1 b2 : Option PyVal),
      s1 = s2 → t1 = t2 → m1 = m2 → p1 = p2 → b1 = b2 →
      build_hmac_signature s1 t1 m1 p1 b1 = build_hmac_signature s2 t2 m2 p2 b2)
    ∧ (∀ (secret : Str) (timestamp : ℤ) (method requestPath : Str) (body : Option PyVal),
      build_hmac_signature secret timestamp method requestPath body
        = specL2Signature secret timestamp method requestPath body) := by
  refine ⟨?_, ?_⟩
  · intro s1 s2 t1 t2 m1 m2 p1 p2 b1 b2 hs ht hm hp hb
    subst hs
    subst ht
    subst hm
    subst hp
    subst hb
    rfl
  · intro secret timestamp method requestPath body
    rfl

/-- Determinism clause of C8 at concrete arguments (the equal-input
hypotheses are discharged by reflexivity). -/
theorem C8_hmac_signature_witness :
    build_hmac_signature (strLit "c2Vj") 10 (strLit "GET") (strLit "/data/trades") Option.none
      = build_hmac_signature (strLit "c2Vj") 10 (strLit "GET") (strLit "/data/trades")
          Option.none :=
  C8_hmac_signature.1 (strLit "c2Vj") (strLit "c2Vj") 10 10 (strLit "GET") (strLit "GET")
    (strLit "/data/trades") (strLit "/data/trades") Option.none Option.none
    rfl rfl rfl rfl rfl


end Polybot
